import Mathlib

/-!
# play_wave: the capture-to-file pipeline of `src/play_wave.c`

A shallow embedding of the WAV preamble writer (`wave_header`) and of the
acquisition loop of `main`, followed by theorems about them.

Conventions of the embedding

* A byte is a `Nat` below 256; a file is the list of bytes written so far.
* `uint16_t` / `uint32_t` values are `Nat`s reduced `% 2^16` / `% 2^32` where the
  C code stores or converts them.
* A `short` sample is an `Int`; its two bytes in memory are those of its value
  modulo `2^16` (two's complement).
* The host is little-endian: `fwrite` of a packed struct or of a `short` array
  emits the least significant byte first.  (The C code writes native byte order.)
* An access outside an allocated buffer is undefined behaviour in C; the
  embedding makes it an explicit failure (`none` / `Step.fault`).
-/

namespace PlayWave

/-! ## Machine integers and memory images -/

/-- Conversion of a C integer value to `uint16_t`. -/
def u16 (x : Int) : Nat := (x % 65536).toNat

/-- Conversion of a C integer value to `uint32_t`. -/
def u32 (x : Int) : Nat := (x % 4294967296).toNat

/-- Memory image of a `uint16_t` on a little-endian host. -/
def le16 (x : Nat) : List Nat := [x % 256, x / 256 % 256]

/-- Memory image of a `uint32_t` on a little-endian host. -/
def le32 (x : Nat) : List Nat :=
  [x % 256, x / 256 % 256, x / 65536 % 256, x / 16777216 % 256]

/-- Value of a little-endian byte sequence. -/
def leValue : List Nat → Nat
  | [] => 0
  | b :: bs => b + 256 * leValue bs

/-- Result of `strncpy(dst, src, n)` into a zeroed `char dst[n]`: the first `n`
characters of `src`, zero padded when `src` is shorter. -/
def strncpy (src : List Char) (n : Nat) : List Nat :=
  (src.take n).map Char.toNat ++ List.replicate (n - src.length) 0

/-! ## Line 31-34: buffer length constants -/

def DEFAULT_SAMPLE_RATE : Nat := 2048000
def DEFAULT_BUF_LENGTH : Nat := 336 * 2
def MINIMAL_BUF_LENGTH : Nat := 672
def MAXIMAL_BUF_LENGTH : Nat := 256 * 16384

/-! ## Line 90-137: the packed structs of the container -/

/-- Struct `datetime_t`: eight `uint16_t` fields. -/
structure datetime_t where
  year : Nat
  month : Nat
  day_of_week : Nat
  day : Nat
  hour : Nat
  minute : Nat
  second : Nat
  milliseconds : Nat
deriving DecidableEq, Repr

/-- Struct `riff_t`. -/
structure riff_t where
  id : List Nat
  size : Nat
  type : List Nat
deriving DecidableEq, Repr

/-- Struct `fmt_t`. -/
structure fmt_t where
  format_tag : Nat
  channels : Nat
  samples_per_sec : Nat
  data_rate : Nat
  block_size : Nat
  bits_per_sample : Nat
deriving DecidableEq, Repr

/-- Struct `auxi_t`. -/
structure auxi_t where
  start_time : datetime_t
  stop_time : datetime_t
  frequency : Nat
  sample_frequency : Nat
  if_frequency : Nat
  bandwidth : Nat
  dc_offset : Nat
deriving DecidableEq, Repr

/-- Struct `chunk_t`. -/
structure chunk_t where
  id : List Nat
  size : Nat
deriving DecidableEq, Repr

/-- The fields of `struct tm` that `set_datetime` reads. -/
structure tm where
  tm_year : Int
  tm_mon : Int
  tm_mday : Int
  tm_hour : Int
  tm_min : Int
  tm_sec : Int
deriving DecidableEq, Repr

/-- The all-zero `datetime_t` left by `memset`. -/
def datetime_t.zero : datetime_t := ⟨0, 0, 0, 0, 0, 0, 0, 0⟩

/-- The all-zero `auxi_t` left by `memset(&auxi, 0, sizeof(auxi_t))`. -/
def auxi_t.zero : auxi_t := ⟨datetime_t.zero, datetime_t.zero, 0, 0, 0, 0, 0⟩

/-- Memory image of a `datetime_t` (packed, 16 bytes). -/
def datetime_t.bytes (d : datetime_t) : List Nat :=
  le16 d.year ++ le16 d.month ++ le16 d.day_of_week ++ le16 d.day ++
  le16 d.hour ++ le16 d.minute ++ le16 d.second ++ le16 d.milliseconds

/-- Memory image of a `riff_t` (packed, 12 bytes). -/
def riff_t.bytes (x : riff_t) : List Nat := x.id ++ le32 x.size ++ x.type

/-- Memory image of a `fmt_t` (packed, 16 bytes). -/
def fmt_t.bytes (x : fmt_t) : List Nat :=
  le16 x.format_tag ++ le16 x.channels ++ le32 x.samples_per_sec ++
  le32 x.data_rate ++ le16 x.block_size ++ le16 x.bits_per_sample

/-- Memory image of an `auxi_t` (packed, 52 bytes). -/
def auxi_t.bytes (x : auxi_t) : List Nat :=
  x.start_time.bytes ++ x.stop_time.bytes ++ le32 x.frequency ++
  le32 x.sample_frequency ++ le32 x.if_frequency ++ le32 x.bandwidth ++
  le32 x.dc_offset

/-- Memory image of a `chunk_t` (packed, 8 bytes). -/
def chunk_t.bytes (x : chunk_t) : List Nat := x.id ++ le32 x.size

/-- `sizeof(riff_t)`. -/
def sizeof_riff_t : Nat := 12
/-- `sizeof(fmt_t)`. -/
def sizeof_fmt_t : Nat := 16
/-- `sizeof(auxi_t)`. -/
def sizeof_auxi_t : Nat := 52
/-- `sizeof(chunk_t)`. -/
def sizeof_chunk_t : Nat := 8

/-! ## The sink -/

/-- A `FILE*` opened for writing: the bytes written so far, and how many more
bytes the sink accepts (`none`: no limit).  A sink that runs out of room
produces the short writes of `fwrite`. -/
structure FILE where
  data : List Nat
  room : Option Nat
deriving DecidableEq, Repr

/-- Call `fwrite(ptr, size, nmemb, file)`, with `ptr` given as its memory image:
writes as many whole items as the sink accepts, at most `nmemb`, and returns
that count with the file. -/
def fwrite (ptr : List Nat) (size nmemb : Nat) (file : FILE) : Nat × FILE :=
  let k := match file.room with
    | none => nmemb
    | some room => min nmemb (room / size)
  (k, { data := file.data ++ ptr.take (size * k),
        room := file.room.map (fun room => room - size * k) })

/-! ## Line 140-198: `set_datetime` and `wave_header` -/

/-- Line 140-150: `set_datetime`, with the result of `gmtime(time(NULL))` passed
in as `now`.  Fields `day_of_week` and `milliseconds` are not assigned. -/
def set_datetime (dt : datetime_t) (now : tm) : datetime_t :=
  { dt with
    year := u16 (now.tm_year + 1900)
    month := u16 (now.tm_mon + 1)
    day := u16 now.tm_mday
    hour := u16 now.tm_hour
    minute := u16 now.tm_min
    second := u16 now.tm_sec }

/-- Line 159-163: the `riff_t` that `wave_header` writes. -/
def wave_header_riff : riff_t :=
  { id := strncpy ['R', 'I', 'F', 'F'] 4
    size := u32 (-1)
    type := strncpy ['W', 'A', 'V', 'E'] 4 }

/-- Line 167-169: the chunk header of the format block. -/
def wave_header_fmt_chunk : chunk_t :=
  { id := strncpy ['f', 'm', 't', ' '] 4, size := sizeof_fmt_t }

/-- Line 173-179: the `fmt_t` that `wave_header` writes.  The products are
computed in `int` and, once `samples_per_sec` takes part, in `uint32_t`. -/
def wave_header_fmt (samp_rate bits_per_sample : Nat) : fmt_t :=
  let format_tag := 1
  let channels := 2
  let bits_per_sample := bits_per_sample % 65536
  let samples_per_sec := samp_rate % 4294967296
  { format_tag := format_tag
    channels := channels
    bits_per_sample := bits_per_sample
    samples_per_sec := samples_per_sec
    data_rate := (channels * bits_per_sample / 8 * samples_per_sec) % 4294967296
    block_size := (channels * bits_per_sample / 8) % 65536 }

/-- Line 183-185: the chunk header of the auxi block. -/
def wave_header_auxi_chunk : chunk_t :=
  { id := strncpy ['a', 'u', 'x', 'i'] 4, size := sizeof_auxi_t }

/-- Line 189-191: the `auxi_t` that `wave_header` writes. -/
def wave_header_auxi (frequency : Nat) (now : tm) : auxi_t :=
  let auxi := { auxi_t.zero with frequency := frequency % 4294967296 }
  { auxi with start_time := set_datetime auxi.start_time now }

/-- Line 195-196: the chunk header of the data block.  The struct is the one
used for the auxi header; only `id` and `size` are overwritten, which is all of
it. -/
def wave_header_data_chunk : chunk_t :=
  { wave_header_auxi_chunk with
    id := strncpy ['d', 'a', 't', 'a'] 4
    size := u32 (-1) }

/-- Line 152-198: `wave_header`.  Returns `none` where the C code calls
`exit(1)` after a short write. -/
def wave_header (file : FILE) (samp_rate frequency bits_per_sample : Nat) (now : tm) :
    Option FILE :=
  let w1 := fwrite wave_header_riff.bytes 1 sizeof_riff_t file
  if w1.1 ≠ sizeof_riff_t then none else
  let w2 := fwrite wave_header_fmt_chunk.bytes 1 sizeof_chunk_t w1.2
  if w2.1 ≠ sizeof_chunk_t then none else
  let w3 := fwrite (wave_header_fmt samp_rate bits_per_sample).bytes 1 sizeof_fmt_t w2.2
  if w3.1 ≠ sizeof_fmt_t then none else
  let w4 := fwrite wave_header_auxi_chunk.bytes 1 sizeof_chunk_t w3.2
  if w4.1 ≠ sizeof_chunk_t then none else
  let w5 := fwrite (wave_header_auxi frequency now).bytes 1 sizeof_auxi_t w4.2
  if w5.1 ≠ sizeof_auxi_t then none else
  let w6 := fwrite wave_header_data_chunk.bytes 1 sizeof_chunk_t w5.2
  if w6.1 ≠ sizeof_chunk_t then none else
  some w6.2

/-- The preamble: the six memory images `wave_header` hands to `fwrite`, in the
order of its six calls. -/
def preamble (samp_rate frequency bits_per_sample : Nat) (now : tm) : List Nat :=
  wave_header_riff.bytes ++ wave_header_fmt_chunk.bytes ++
  (wave_header_fmt samp_rate bits_per_sample).bytes ++ wave_header_auxi_chunk.bytes ++
  (wave_header_auxi frequency now).bytes ++ wave_header_data_chunk.bytes

/-! ## Line 210-432: the acquisition loop of `main` -/

/-- Return code `mir_sdr_Success` of the device library. -/
def mir_sdr_Success : Int := 0

/-- Line 205: the global `interval_seconds`. -/
def interval_seconds : Int := 2

/-- What one call of `mir_sdr_ReadPacket` leaves behind: its return code and the
contents of the global arrays `ibuf` and `qbuf`. -/
structure Packet where
  r : Int
  ibuf : List Int
  qbuf : List Int
deriving DecidableEq, Repr

/-- Lines written to `stderr` from line 350 on. -/
inductive Msg where
  /-- Line 363: "WARNING: ReadPacket failed." -/
  | readPacketFailed
  /-- Line 392: the "PEAK ... dBFS   PAR ... dB" report, with the values it is
  computed from: both peaks, both sums (before the division by `interval`) and
  `interval`. -/
  | levels (ipeak qpeak iavg qavg : Nat) (interval : Int)
  /-- Line 408: "Short write, samples lost, exiting!" -/
  | shortWrite
  /-- Line 412: "Short read, samples lost, exiting!" -/
  | shortRead
  /-- Line 421: "User cancel, exiting..." -/
  | userCancel
  /-- Line 423: "Library error %d, exiting..." -/
  | libraryError (r : Int)
deriving DecidableEq, Repr

/-- What is fixed before the loop starts: `samp_rate` (line 220, 235),
`out_block_size` (line 221) and the global `samplesPerPacket` filled in by
`mir_sdr_Init` (line 319, 329). -/
structure Config where
  samp_rate : Nat
  out_block_size : Nat
  samplesPerPacket : Nat
deriving DecidableEq, Repr

/-- The variables the loop reads and writes.  The `float` accumulators
`ipeak`, `qpeak`, `iavg`, `qavg` are kept exactly, in units of `2^-30`: a sample
`v` contributes `v * v`, which stands for `(v / 32768)^2`. -/
structure State where
  do_exit : Bool
  bytes_to_read : Nat
  buffer : List Int
  interval : Int
  ipeak : Nat
  qpeak : Nat
  iavg : Nat
  qavg : Nat
  r : Int
  file : FILE
  stderr : List Msg
deriving DecidableEq, Repr

/-- Line 238: `bytes_to_read = (uint32_t)atofs(optarg) * 2`, for an option value
that denotes the whole number `n`; the product is a `uint32_t`. -/
def bytes_to_read_of (n : Nat) : Nat := (n % 4294967296 * 2) % 4294967296

/-- Line 221, 258-267: `out_block_size` is `DEFAULT_BUF_LENGTH`; the range test
can only reset it to the same value. -/
def out_block_size : Nat :=
  if DEFAULT_BUF_LENGTH < MINIMAL_BUF_LENGTH ∨ DEFAULT_BUF_LENGTH > MAXIMAL_BUF_LENGTH then
    DEFAULT_BUF_LENGTH
  else DEFAULT_BUF_LENGTH

/-- Assignment `buffer[j] = v` into an array of `buffer.length` shorts. -/
def store (buffer : List Int) (j : Nat) (v : Int) : Option (List Int) :=
  if j < buffer.length then some (buffer.set j v) else none

/-- Line 368-372: the interleave loop with `n` iterations still to run, at
indices `i` and `j`. -/
def interleave_loop (ibuf qbuf : List Int) : Nat → Nat → Nat → List Int → Option (List Int)
  | 0, _, _, buffer => some buffer
  | n + 1, i, j, buffer =>
    match ibuf[i]? with
    | none => none
    | some x =>
      match store buffer j x with
      | none => none
      | some b1 =>
        match qbuf[i]? with
        | none => none
        | some y =>
          match store b1 (j + 1) y with
          | none => none
          | some b2 => interleave_loop ibuf qbuf n (i + 1) (j + 2) b2

/-- Line 367-372: `j = 0; for (i = 0; i < samplesPerPacket; i++) ...`. -/
def interleave (ibuf qbuf : List Int) (samplesPerPacket : Nat) (buffer : List Int) :
    Option (List Int) :=
  interleave_loop ibuf qbuf samplesPerPacket 0 0 buffer

/-- The four level accumulators. -/
structure Levels where
  ipeak : Nat
  qpeak : Nat
  iavg : Nat
  qavg : Nat
deriving DecidableEq, Repr

/-- Line 376-386: the accumulation loop with `n` iterations still to run, at
index `i`. -/
def observe_loop (ibuf qbuf : List Int) : Nat → Nat → Levels → Option Levels
  | 0, _, lv => some lv
  | n + 1, i, lv =>
    match ibuf[i]?, qbuf[i]? with
    | some x, some y =>
      let ival := (x * x).toNat
      let qval := (y * y).toNat
      let iavg := lv.iavg + ival
      let qavg := lv.qavg + qval
      let ipeak := if ival > lv.ipeak then ival else lv.ipeak
      let qpeak := if qval > lv.qpeak then qval else lv.qpeak
      observe_loop ibuf qbuf n (i + 1) ⟨ipeak, qpeak, iavg, qavg⟩
    | _, _ => none

/-- Conversion of an `int` sum to `int` (two's complement wrap-around). -/
def i32 (x : Int) : Int := (x + 2147483648) % 4294967296 - 2147483648

/-- Line 388-396: advance `interval`, and report and reset when it exceeds
`samp_rate * interval_seconds`.  The comparison is between `uint32_t` values. -/
def report (c : Config) (s : State) : State :=
  let interval := i32 (s.interval + c.samplesPerPacket)
  if u32 interval > u32 (c.samp_rate * interval_seconds) then
    { s with
      stderr := s.stderr ++ [Msg.levels s.ipeak s.qpeak s.iavg s.qavg interval]
      interval := 0
      ipeak := 0
      qpeak := 0
      iavg := 0
      qavg := 0 }
  else { s with interval := interval }

/-- How one pass through the loop body ends. -/
inductive Step where
  /-- The body ran to its end; the loop condition is tested next. -/
  | next (s : State)
  /-- The body left the loop with `break`. -/
  | brk (s : State)
  /-- The body accessed an array outside its allocation. -/
  | fault
deriving DecidableEq, Repr

/-- Memory image of an array of `short`. -/
def shorts_bytes (buffer : List Int) : List Nat :=
  buffer.flatMap (fun v => le16 (u16 v))

/-- Line 400-417: choose `n_read`, write, test for short transfers, decrement
the budget. -/
def persist (c : Config) (s : State) : Step :=
  let n_read := c.samplesPerPacket * 2
  let budget_hit := decide (s.bytes_to_read > 0 ∧ s.bytes_to_read ≤ n_read % 4294967296)
  let n_read := if budget_hit then s.bytes_to_read else n_read
  let do_exit := if budget_hit then true else s.do_exit
  if n_read > s.buffer.length then Step.fault else
  let w := fwrite (shorts_bytes s.buffer) 2 n_read s.file
  if w.1 ≠ n_read then
    Step.brk { s with do_exit := do_exit, file := w.2, stderr := s.stderr ++ [Msg.shortWrite] }
  else if n_read % 4294967296 < c.out_block_size then
    Step.brk { s with do_exit := do_exit, file := w.2, stderr := s.stderr ++ [Msg.shortRead] }
  else
    Step.next { s with
      do_exit := do_exit
      file := w.2
      bytes_to_read := if s.bytes_to_read > 0 then s.bytes_to_read - n_read
                       else s.bytes_to_read }

/-- Line 360-417: one pass through the body of `while (!do_exit)`, given what
`mir_sdr_ReadPacket` returns. -/
def body (c : Config) (s : State) (p : Packet) : Step :=
  if p.r ≠ mir_sdr_Success then
    Step.brk { s with r := p.r, stderr := s.stderr ++ [Msg.readPacketFailed] }
  else
    match interleave p.ibuf p.qbuf c.samplesPerPacket s.buffer with
    | none => Step.fault
    | some buffer =>
      match observe_loop p.ibuf p.qbuf c.samplesPerPacket 0
          ⟨s.ipeak, s.qpeak, s.iavg, s.qavg⟩ with
      | none => Step.fault
      | some lv =>
        persist c (report c { s with
          r := p.r
          buffer := buffer
          ipeak := lv.ipeak
          qpeak := lv.qpeak
          iavg := lv.iavg
          qavg := lv.qavg })

/-- How a run of the loop against a finite device script ends. -/
inductive Outcome where
  /-- The loop was left, by its condition or by `break`; `rest` are the packets
  that were never requested. -/
  | done (s : State) (rest : List Packet)
  /-- The script is used up and the loop is still running: it is about to call
  `mir_sdr_ReadPacket` again. -/
  | running (s : State)
  /-- An access outside an allocated array. -/
  | fault
deriving DecidableEq, Repr

/-- Line 351-418: `while (!do_exit) { ... }`, where the successive calls of
`mir_sdr_ReadPacket` return the packets of the script in order. -/
def loop (c : Config) : State → List Packet → Outcome
  | s, [] => if s.do_exit then Outcome.done s [] else Outcome.running s
  | s, p :: ps =>
    if s.do_exit then Outcome.done s (p :: ps)
    else
      match body c s p with
      | Step.next s1 => loop c s1 ps
      | Step.brk s1 => Outcome.done s1 ps
      | Step.fault => Outcome.fault

/-- Line 420-423: the status line after the loop. -/
def epilogue (s : State) : State :=
  { s with
    stderr := s.stderr ++
      [if s.do_exit then Msg.userCancel else Msg.libraryError s.r] }

/-- Line 302-306, 347-351: the variables as the loop finds them: a `buffer` of
`out_block_size` shorts with the contents `malloc` left in it, cleared
accumulators, the budget from option `-n`, the file after `wave_header`. -/
def initial (buffer : List Int) (bytes_to_read : Nat) (file : FILE) : State :=
  { do_exit := false
    bytes_to_read := bytes_to_read
    buffer := buffer
    interval := 0
    ipeak := 0
    qpeak := 0
    iavg := 0
    qavg := 0
    r := mir_sdr_Success
    file := file
    stderr := [] }

/-! ## Definitions used to state the properties -/

/-- Interleaved frame of a batch, as the specification words it: one I sample
then one Q sample, alternating. -/
def frame : List Int → List Int → List Int
  | x :: xs, y :: ys => x :: y :: frame xs ys
  | _, _ => []

/-- Interleaved frame of a packet as bytes: each sample 16 bits wide, least
significant byte first. -/
def frame_bytes (p : Packet) : List Nat :=
  (frame p.ibuf p.qbuf).flatMap (fun v => le16 (u16 v))

/-- A packet of a successful read that fills both arrays with
`samplesPerPacket` samples. -/
def Packet.good (samplesPerPacket : Nat) (p : Packet) : Prop :=
  p.r = mir_sdr_Success ∧ p.ibuf.length = samplesPerPacket ∧
    p.qbuf.length = samplesPerPacket

instance (n : Nat) (p : Packet) : Decidable (p.good n) := by
  unfold Packet.good; infer_instance

/-- The configuration of a session: the sample rate of option `-s`, the
program's `out_block_size`, and the batch size the device reported. -/
def config (samp_rate samplesPerPacket : Nat) : Config :=
  { samp_rate := samp_rate, out_block_size := out_block_size,
    samplesPerPacket := samplesPerPacket }

/-- The state of a finished run, if it finished. -/
def Outcome.state? : Outcome → Option State
  | Outcome.done s _ => some s
  | Outcome.running s => some s
  | Outcome.fault => none

/-- The sink accepts `bytes` more bytes: every write up to that total is
complete. -/
def Fits (file : FILE) (bytes : Nat) : Prop :=
  ∀ room, file.room = some room → bytes ≤ room

/-- The messages a pass may add to `stderr` before its write: nothing, or one
level report. -/
def IsReport (rep : List Msg) : Prop :=
  rep = [] ∨ ∃ a b c d e, rep = [Msg.levels a b c d e]

/-- A packet of a successful read of `B` pairs in which every I sample is `i`
and every Q sample is `q`. -/
def packet_of (B : Nat) (i q : Int) : Packet :=
  { r := mir_sdr_Success, ibuf := List.replicate B i, qbuf := List.replicate B q }

/-- An empty file on a sink without limit. -/
def empty_file : FILE := { data := [], room := none }

/-- The `struct tm` of 2026-11-01 12:00:00 UTC. -/
def noon : tm :=
  { tm_year := 126, tm_mon := 10, tm_mday := 1, tm_hour := 12, tm_min := 0, tm_sec := 0 }

/-- The file after `wave_header` wrote the preamble of a capture at 2,048,000
samples per second and 100 MHz to an empty file. -/
def header_file : FILE :=
  { data := preamble 2048000 100000000 16 noon, room := none }

/-- A file with nothing in it on a sink that accepts `room` more bytes. -/
def limited_file (room : Nat) : FILE := { data := [], room := some room }

/-- Line 388-396 with the global `interval_seconds` holding `seconds`; `report`
is this function at the value 2 that the program leaves in the variable. -/
def report_at (seconds : Int) (c : Config) (s : State) : State :=
  let interval := i32 (s.interval + c.samplesPerPacket)
  if u32 interval > u32 (c.samp_rate * seconds) then
    { s with
      stderr := s.stderr ++ [Msg.levels s.ipeak s.qpeak s.iavg s.qavg interval]
      interval := 0
      ipeak := 0
      qpeak := 0
      iavg := 0
      qavg := 0 }
  else { s with interval := interval }

/-- Line 200-203: `db`, for any number type, with the library function `logf`
passed in.  In C `logf` is the natural logarithm. -/
def db {α : Type} [Mul α] [OfNat α 10] (logf : α → α) (x : α) : α :=
  10 * logf x

/-! # Theorems -/

/-! ## The preamble -/

theorem wave_header_riff_length : wave_header_riff.bytes.length = 12 := by decide

theorem wave_header_fmt_chunk_length : wave_header_fmt_chunk.bytes.length = 8 := by decide

theorem wave_header_fmt_length (samp_rate bits_per_sample : Nat) :
    (wave_header_fmt samp_rate bits_per_sample).bytes.length = 16 := by
  simp [fmt_t.bytes, le16, le32]

theorem wave_header_auxi_chunk_length : wave_header_auxi_chunk.bytes.length = 8 := by decide

theorem wave_header_auxi_length (frequency : Nat) (now : tm) :
    (wave_header_auxi frequency now).bytes.length = 52 := by
  simp [auxi_t.bytes, datetime_t.bytes, le16, le32]

theorem wave_header_data_chunk_length : wave_header_data_chunk.bytes.length = 8 := by decide

theorem preamble_length (samp_rate frequency bits_per_sample : Nat) (now : tm) :
    (preamble samp_rate frequency bits_per_sample now).length = 104 := by
  simp [preamble, wave_header_riff_length, wave_header_fmt_chunk_length,
    wave_header_fmt_length, wave_header_auxi_chunk_length, wave_header_auxi_length,
    wave_header_data_chunk_length]

/-- A byte-wise `fwrite` of a whole memory image into a sink with enough room. -/
theorem fwrite_bytes_ok (ptr : List Nat) (n : Nat) (file : FILE) (hl : ptr.length = n)
    (h : ∀ room, file.room = some room → n ≤ room) :
    fwrite ptr 1 n file =
      (n, { data := file.data ++ ptr, room := file.room.map (fun room => room - n) }) := by
  obtain ⟨data, room⟩ := file
  cases room with
  | none => simp [fwrite, ← hl]
  | some room =>
    have hr : n ≤ room := h room rfl
    simp [fwrite, ← hl]
    omega

/-- With room for 104 bytes every write of `wave_header` is complete, and the
file grows by the preamble. -/
theorem wave_header_ok (file : FILE) (samp_rate frequency bits_per_sample : Nat) (now : tm)
    (h : Fits file 104) :
    wave_header file samp_rate frequency bits_per_sample now =
      some { data := file.data ++ preamble samp_rate frequency bits_per_sample now,
             room := file.room.map (fun room => room - 104) } := by
  have e1 := wave_header_riff_length
  have e2 := wave_header_fmt_chunk_length
  have e3 := wave_header_fmt_length samp_rate bits_per_sample
  have e4 := wave_header_auxi_chunk_length
  have e5 := wave_header_auxi_length frequency now
  have e6 := wave_header_data_chunk_length
  obtain ⟨data, room⟩ := file
  unfold wave_header
  simp only [sizeof_riff_t, sizeof_chunk_t, sizeof_fmt_t, sizeof_auxi_t]
  cases room with
  | none =>
    rw [fwrite_bytes_ok _ 12 _ e1 (by simp)]
    simp only [Option.map_none']
    rw [fwrite_bytes_ok _ 8 _ e2 (by simp)]
    simp only [Option.map_none']
    rw [fwrite_bytes_ok _ 16 _ e3 (by simp)]
    simp only [Option.map_none']
    rw [fwrite_bytes_ok _ 8 _ e4 (by simp)]
    simp only [Option.map_none']
    rw [fwrite_bytes_ok _ 52 _ e5 (by simp)]
    simp only [Option.map_none']
    rw [fwrite_bytes_ok _ 8 _ e6 (by simp)]
    simp [preamble]
  | some room =>
    have hr : 104 ≤ room := h room rfl
    rw [fwrite_bytes_ok _ 12 _ e1 (by simp; omega)]
    simp only [Option.map_some']
    rw [fwrite_bytes_ok _ 8 _ e2 (by simp; omega)]
    simp only [Option.map_some']
    rw [fwrite_bytes_ok _ 16 _ e3 (by simp; omega)]
    simp only [Option.map_some']
    rw [fwrite_bytes_ok _ 8 _ e4 (by simp; omega)]
    simp only [Option.map_some']
    rw [fwrite_bytes_ok _ 52 _ e5 (by simp; omega)]
    simp only [Option.map_some']
    rw [fwrite_bytes_ok _ 8 _ e6 (by simp; omega)]
    simp [preamble]
    omega

/-- A complete byte-wise `fwrite` into a sink with limited room fits in it. -/
theorem fwrite_bytes_complete (ptr : List Nat) (n : Nat) (file : FILE) (room : Nat)
    (hroom : file.room = some room) (h : (fwrite ptr 1 n file).1 = n) :
    n ≤ room ∧ (fwrite ptr 1 n file).2.room = some (room - n) := by
  obtain ⟨data, r⟩ := file
  simp only at hroom
  subst hroom
  simp only [fwrite, Nat.div_one, Option.map_some', one_mul] at h ⊢
  have : n ≤ room := by omega
  refine ⟨this, ?_⟩
  rw [Nat.min_eq_left this]

/-- The sink of `wave_header`'s result holds the old contents followed by the
preamble, whatever the room was. -/
theorem wave_header_data (file file' : FILE) (samp_rate frequency bits_per_sample : Nat)
    (now : tm) (h : wave_header file samp_rate frequency bits_per_sample now = some file') :
    file'.data = file.data ++ preamble samp_rate frequency bits_per_sample now := by
  by_cases hr : ∀ room, file.room = some room → 104 ≤ room
  · rw [wave_header_ok file _ _ _ _ hr] at h
    cases h
    rfl
  · exfalso
    push_neg at hr
    obtain ⟨room, hroom, hlt⟩ := hr
    simp only [wave_header, sizeof_riff_t, sizeof_chunk_t, sizeof_fmt_t, sizeof_auxi_t] at h
    split at h
    · cases h
    next h1 =>
    obtain ⟨a1, r1⟩ := fwrite_bytes_complete _ _ _ _ hroom (of_not_not h1)
    split at h
    · cases h
    next h2 =>
    obtain ⟨a2, r2⟩ := fwrite_bytes_complete _ _ _ _ r1 (of_not_not h2)
    split at h
    · cases h
    next h3 =>
    obtain ⟨a3, r3⟩ := fwrite_bytes_complete _ _ _ _ r2 (of_not_not h3)
    split at h
    · cases h
    next h4 =>
    obtain ⟨a4, r4⟩ := fwrite_bytes_complete _ _ _ _ r3 (of_not_not h4)
    split at h
    · cases h
    next h5 =>
    obtain ⟨a5, r5⟩ := fwrite_bytes_complete _ _ _ _ r4 (of_not_not h5)
    split at h
    · cases h
    next h6 =>
    obtain ⟨a6, _⟩ := fwrite_bytes_complete _ _ _ _ r5 (of_not_not h6)
    omega

/-- ASCII codes of a tag. -/
theorem strncpy_four (a b c d : Char) :
    strncpy [a, b, c, d] 4 = [a.toNat, b.toNat, c.toNat, d.toNat] := by
  simp [strncpy]

/-! ## The interleave loop -/

theorem set_at_length (pre : List Int) (a x : Int) (l : List Int) :
    (pre ++ a :: l).set pre.length x = pre ++ x :: l := by
  induction pre with
  | nil => rfl
  | cons b pre ih => simp [List.set, ih]

theorem store_at_length (pre : List Int) (a x : Int) (l : List Int) :
    store (pre ++ a :: l) pre.length x = some (pre ++ x :: l) := by
  simp [store, set_at_length]

/-- The interleave loop started at sample `i` and buffer index `pre.length`
overwrites the next `2 * n` buffer elements with the frame of the next `n`
sample pairs and touches nothing else. -/
theorem interleave_loop_eq (ibuf qbuf : List Int) :
    ∀ (n i : Nat) (pre post : List Int), 2 * n ≤ post.length →
      i + n ≤ ibuf.length → i + n ≤ qbuf.length →
      interleave_loop ibuf qbuf n i pre.length (pre ++ post) =
        some (pre ++ frame ((ibuf.drop i).take n) ((qbuf.drop i).take n) ++ post.drop (2 * n)) := by
  intro n
  induction n with
  | zero => intro i pre post _ _ _; simp [interleave_loop, frame]
  | succ n ih =>
    intro i pre post hp hi hq
    match post, hp with
    | a :: b :: post, hp =>
      have hi' : i < ibuf.length := by omega
      have hq' : i < qbuf.length := by omega
      have e1 : store (pre ++ a :: b :: post) pre.length ibuf[i] =
          some (pre ++ ibuf[i] :: b :: post) := store_at_length _ _ _ _
      have e2 : store (pre ++ ibuf[i] :: b :: post) (pre.length + 1) qbuf[i] =
          some ((pre ++ [ibuf[i], qbuf[i]]) ++ post) := by
        have := store_at_length (pre ++ [ibuf[i]]) b qbuf[i] post
        simpa using this
      have e3 := ih (i + 1) (pre ++ [ibuf[i], qbuf[i]]) post
        (by simp at hp; omega) (by omega) (by omega)
      have e4 : (pre ++ [ibuf[i], qbuf[i]]).length = pre.length + 2 := by simp
      rw [e4] at e3
      simp only [interleave_loop, List.getElem?_eq_getElem hi', List.getElem?_eq_getElem hq',
        e1, e2, e3]
      rw [List.drop_eq_getElem_cons hi', List.drop_eq_getElem_cons hq']
      simp [frame, Nat.mul_succ]

theorem interleave_eq (ibuf qbuf buffer : List Int) (n : Nat) (hi : ibuf.length = n)
    (hq : qbuf.length = n) (hb : 2 * n ≤ buffer.length) :
    interleave ibuf qbuf n buffer = some (frame ibuf qbuf ++ buffer.drop (2 * n)) := by
  have := interleave_loop_eq ibuf qbuf n 0 [] buffer hb (by omega) (by omega)
  rw [List.drop_zero, List.drop_zero, List.take_of_length_le (by omega),
    List.take_of_length_le (by omega)] at this
  simpa [interleave] using this

theorem observe_loop_some (ibuf qbuf : List Int) :
    ∀ (n i : Nat) (lv : Levels), i + n ≤ ibuf.length → i + n ≤ qbuf.length →
      ∃ lv', observe_loop ibuf qbuf n i lv = some lv' := by
  intro n
  induction n with
  | zero => intro i lv _ _; exact ⟨lv, rfl⟩
  | succ n ih =>
    intro i lv hi hq
    have hi' : i < ibuf.length := by omega
    have hq' : i < qbuf.length := by omega
    simp only [observe_loop, List.getElem?_eq_getElem hi', List.getElem?_eq_getElem hq']
    exact ih (i + 1) _ (by omega) (by omega)

theorem frame_length : ∀ (ibuf qbuf : List Int) (n : Nat), ibuf.length = n → qbuf.length = n →
    (frame ibuf qbuf).length = 2 * n
  | [], [], n, h, _ => by simp [frame, ← h]
  | [], _ :: _, n, h, h' => by simp at h h'; omega
  | _ :: _, [], n, h, h' => by simp at h h'; omega
  | x :: xs, y :: ys, n, h, h' => by
    simp only [frame, List.length_cons] at h h' ⊢
    rw [frame_length xs ys (n - 1) (by omega) (by omega)]
    omega

theorem shorts_bytes_length (l : List Int) : (shorts_bytes l).length = 2 * l.length := by
  induction l with
  | nil => rfl
  | cons a l ih =>
    simp only [shorts_bytes, List.flatMap_cons, List.length_append, le16, List.length_cons,
      List.length_nil] at ih ⊢
    omega

theorem frame_bytes_length (p : Packet) (n : Nat) (h : p.good n) :
    (frame_bytes p).length = 4 * n := by
  have := shorts_bytes_length (frame p.ibuf p.qbuf)
  rw [frame_length _ _ n h.2.1 h.2.2] at this
  simp only [shorts_bytes] at this
  simp only [frame_bytes, this]
  omega

/-! ## One pass through the loop body -/

theorem report_file (c : Config) (s : State) : (report c s).file = s.file := by
  simp only [report]; split <;> rfl

theorem report_buffer (c : Config) (s : State) : (report c s).buffer = s.buffer := by
  simp only [report]; split <;> rfl

theorem report_do_exit (c : Config) (s : State) : (report c s).do_exit = s.do_exit := by
  simp only [report]; split <;> rfl

theorem report_bytes_to_read (c : Config) (s : State) :
    (report c s).bytes_to_read = s.bytes_to_read := by
  simp only [report]; split <;> rfl

theorem report_r (c : Config) (s : State) : (report c s).r = s.r := by
  simp only [report]; split <;> rfl

theorem report_stderr (c : Config) (s : State) :
    (report c s).stderr = s.stderr ++
      (if u32 (i32 (s.interval + c.samplesPerPacket)) > u32 (c.samp_rate * interval_seconds)
       then [Msg.levels s.ipeak s.qpeak s.iavg s.qavg (i32 (s.interval + c.samplesPerPacket))]
       else []) := by
  by_cases h : u32 (i32 (s.interval + c.samplesPerPacket)) > u32 (c.samp_rate * interval_seconds)
  · simp only [report, h, if_true]
  · simp only [report, h, if_false, List.append_nil]

/-- An element-wise `fwrite` of `n` shorts into a sink that accepts them. -/
theorem fwrite_shorts_ok (ptr : List Nat) (n : Nat) (file : FILE) (h : Fits file (2 * n)) :
    fwrite ptr 2 n file =
      (n, { data := file.data ++ ptr.take (2 * n),
            room := file.room.map (fun room => room - 2 * n) }) := by
  obtain ⟨data, room⟩ := file
  cases room with
  | none => simp [fwrite]
  | some room =>
    have hr : 2 * n ≤ room := h room rfl
    have : min n (room / 2) = n := by omega
    simp [fwrite, this]

/-- Line 400-417 on a buffer that holds a whole batch and a sink that accepts
what is written. -/
theorem persist_eq (c : Config) (t : State)
    (hs : c.samplesPerPacket * 2 < 4294967296)
    (hle : c.samplesPerPacket * 2 ≤ t.buffer.length)
    (hroom : Fits t.file (2 * (if 0 < t.bytes_to_read ∧ t.bytes_to_read ≤ c.samplesPerPacket * 2
      then t.bytes_to_read else c.samplesPerPacket * 2))) :
    persist c t =
      if 0 < t.bytes_to_read ∧ t.bytes_to_read ≤ c.samplesPerPacket * 2 then
        if t.bytes_to_read < c.out_block_size then
          Step.brk { t with
            do_exit := true
            file := ⟨t.file.data ++ (shorts_bytes t.buffer).take (2 * t.bytes_to_read),
              t.file.room.map (fun room => room - 2 * t.bytes_to_read)⟩
            stderr := t.stderr ++ [Msg.shortRead] }
        else
          Step.next { t with
            do_exit := true
            file := ⟨t.file.data ++ (shorts_bytes t.buffer).take (2 * t.bytes_to_read),
              t.file.room.map (fun room => room - 2 * t.bytes_to_read)⟩
            bytes_to_read := 0 }
      else
        if c.samplesPerPacket * 2 < c.out_block_size then
          Step.brk { t with
            file := ⟨t.file.data ++
              (shorts_bytes t.buffer).take (2 * (c.samplesPerPacket * 2)),
              t.file.room.map (fun room => room - 2 * (c.samplesPerPacket * 2))⟩
            stderr := t.stderr ++ [Msg.shortRead] }
        else
          Step.next { t with
            file := ⟨t.file.data ++
              (shorts_bytes t.buffer).take (2 * (c.samplesPerPacket * 2)),
              t.file.room.map (fun room => room - 2 * (c.samplesPerPacket * 2))⟩
            bytes_to_read := t.bytes_to_read - c.samplesPerPacket * 2 } := by
  have hm : c.samplesPerPacket * 2 % 4294967296 = c.samplesPerPacket * 2 := Nat.mod_eq_of_lt hs
  by_cases hit : 0 < t.bytes_to_read ∧ t.bytes_to_read ≤ c.samplesPerPacket * 2
  · have hm2 : t.bytes_to_read % 4294967296 = t.bytes_to_read := Nat.mod_eq_of_lt (by omega)
    have h3 : ¬ t.bytes_to_read > t.buffer.length := by omega
    rw [if_pos hit] at hroom
    simp only [persist, hm, hit, and_self, decide_True, if_true, h3, if_false,
      fwrite_shorts_ok _ _ _ hroom, hm2, ne_eq, not_true_eq_false, gt_iff_lt, Nat.sub_self]
  · have h3 : ¬ c.samplesPerPacket * 2 > t.buffer.length := by omega
    rw [if_neg hit] at hroom
    simp only [persist, hm, hit, decide_False, if_false, h3, fwrite_shorts_ok _ _ _ hroom, ne_eq,
      not_true_eq_false, gt_iff_lt, Bool.false_eq_true]
    by_cases hz : 0 < t.bytes_to_read
    · simp [hz]
    · have : t.bytes_to_read = 0 := by omega
      simp [this]

theorem body_good (c : Config) (s : State) (p : Packet) (hp : p.good c.samplesPerPacket)
    (hb : 2 * c.samplesPerPacket ≤ s.buffer.length) :
    ∃ lv : Levels, body c s p = persist c (report c { s with
      r := p.r
      buffer := frame p.ibuf p.qbuf ++ s.buffer.drop (2 * c.samplesPerPacket)
      ipeak := lv.ipeak
      qpeak := lv.qpeak
      iavg := lv.iavg
      qavg := lv.qavg }) := by
  obtain ⟨hr, hi, hq⟩ := hp
  obtain ⟨lv, hlv⟩ := observe_loop_some p.ibuf p.qbuf c.samplesPerPacket 0
    ⟨s.ipeak, s.qpeak, s.iavg, s.qavg⟩ (by omega) (by omega)
  refine ⟨lv, ?_⟩
  simp only [body, hr, ne_eq, not_true_eq_false, if_false, interleave_eq _ _ _ _ hi hq hb, hlv]

theorem out_block_size_eq : out_block_size = 672 := by decide

theorem shorts_bytes_append (a b : List Int) :
    shorts_bytes (a ++ b) = shorts_bytes a ++ shorts_bytes b := by
  simp [shorts_bytes]

/-- The first `2 * n` bytes of the buffer after the interleave step are those of
the frame, as long as `n` elements lie within the frame. -/
theorem take_shorts_bytes_frame (p : Packet) (B n : Nat) (rest : List Int) (hp : p.good B)
    (hn : n ≤ 2 * B) :
    (shorts_bytes (frame p.ibuf p.qbuf ++ rest)).take (2 * n) = (frame_bytes p).take (2 * n) := by
  have hl := frame_bytes_length p B hp
  rw [shorts_bytes_append]
  exact List.take_append_of_le_length (by unfold frame_bytes at hl; unfold shorts_bytes; omega)

/-- A pass over a successfully read packet of `B ≤ 336` pairs, with a 672
element buffer and a sink that accepts what is written: the state `t` before
line 400 and what line 400-417 does from it. -/
theorem body_eq (sr B : Nat) (s : State) (p : Packet) (hp : p.good B) (hB : B ≤ 336)
    (hb : s.buffer.length = 672)
    (hroom : Fits s.file (2 * (if 0 < s.bytes_to_read ∧ s.bytes_to_read ≤ B * 2
      then s.bytes_to_read else B * 2))) :
    ∃ (t : State) (rep : List Msg), t.file = s.file ∧ t.do_exit = s.do_exit ∧
      t.bytes_to_read = s.bytes_to_read ∧ t.buffer.length = 672 ∧
      (∀ n, n ≤ 2 * B → (shorts_bytes t.buffer).take (2 * n) = (frame_bytes p).take (2 * n)) ∧
      t.stderr = s.stderr ++ rep ∧ IsReport rep ∧
      (¬ u32 (i32 (s.interval + B)) > u32 (sr * interval_seconds) →
        rep = [] ∧ t.interval = i32 (s.interval + B)) ∧
      body (config sr B) s p =
        if 0 < t.bytes_to_read ∧ t.bytes_to_read ≤ B * 2 then
          if t.bytes_to_read < 672 then
            Step.brk { t with
              do_exit := true
              file := ⟨t.file.data ++ (shorts_bytes t.buffer).take (2 * t.bytes_to_read),
                t.file.room.map (fun room => room - 2 * t.bytes_to_read)⟩
              stderr := t.stderr ++ [Msg.shortRead] }
          else
            Step.next { t with
              do_exit := true
              file := ⟨t.file.data ++ (shorts_bytes t.buffer).take (2 * t.bytes_to_read),
                t.file.room.map (fun room => room - 2 * t.bytes_to_read)⟩
              bytes_to_read := 0 }
        else
          if B * 2 < 672 then
            Step.brk { t with
              file := ⟨t.file.data ++ (shorts_bytes t.buffer).take (2 * (B * 2)),
                t.file.room.map (fun room => room - 2 * (B * 2))⟩
              stderr := t.stderr ++ [Msg.shortRead] }
          else
            Step.next { t with
              file := ⟨t.file.data ++ (shorts_bytes t.buffer).take (2 * (B * 2)),
                t.file.room.map (fun room => room - 2 * (B * 2))⟩
              bytes_to_read := t.bytes_to_read - B * 2 } := by
  obtain ⟨lv, hlv⟩ := body_good (config sr B) s p hp (by show 2 * B ≤ _; omega)
  have hfl := frame_length p.ibuf p.qbuf B hp.2.1 hp.2.2
  have hlen : (frame p.ibuf p.qbuf ++ s.buffer.drop (2 * B)).length = 672 := by
    rw [List.length_append, List.length_drop, hfl, hb]; omega
  refine ⟨report (config sr B) { s with
      r := p.r
      buffer := frame p.ibuf p.qbuf ++ s.buffer.drop (2 * B)
      ipeak := lv.ipeak
      qpeak := lv.qpeak
      iavg := lv.iavg
      qavg := lv.qavg },
    (if u32 (i32 (s.interval + B)) > u32 (sr * interval_seconds)
       then [Msg.levels lv.ipeak lv.qpeak lv.iavg lv.qavg (i32 (s.interval + B))]
       else []), ?_, ?_, ?_, ?_, ?_, ?_, ?_, ?_, ?_⟩
  · rw [report_file]
  · rw [report_do_exit]
  · rw [report_bytes_to_read]
  · rw [report_buffer]; exact hlen
  · intro n hn
    rw [report_buffer]
    exact take_shorts_bytes_frame p B n _ hp hn
  · rw [report_stderr]; rfl
  · unfold IsReport
    split
    · exact Or.inr ⟨_, _, _, _, _, rfl⟩
    · exact Or.inl rfl
  · intro h
    refine ⟨if_neg h, ?_⟩
    have h' : ¬ u32 (i32 (s.interval + (config sr B).samplesPerPacket)) >
        u32 ((config sr B).samp_rate * interval_seconds) := h
    simp only [report, h', if_false]
    rfl
  · rw [hlv, persist_eq _ _ (by show B * 2 < _; omega)
      (by rw [report_buffer]
          show B * 2 ≤ (frame p.ibuf p.qbuf ++ List.drop (2 * B) s.buffer).length
          rw [hlen]; omega)
      (by rw [report_file, report_bytes_to_read]; exact hroom)]
    rfl

/-! ## Runs of the loop -/

theorem loop_do_exit (c : Config) (s : State) (ps : List Packet) (h : s.do_exit = true) :
    loop c s ps = Outcome.done s ps := by
  cases ps <;> simp [loop, h]

theorem loop_next (c : Config) (s s1 : State) (p : Packet) (ps : List Packet)
    (h : s.do_exit = false) (hb : body c s p = Step.next s1) :
    loop c s (p :: ps) = loop c s1 ps := by
  simp [loop, h, hb]

theorem loop_brk (c : Config) (s s1 : State) (p : Packet) (ps : List Packet)
    (h : s.do_exit = false) (hb : body c s p = Step.brk s1) :
    loop c s (p :: ps) = Outcome.done s1 ps := by
  simp [loop, h, hb]

theorem fits_after (data data' : List Nat) (room : Option Nat) (k n : Nat)
    (h : Fits ⟨data, room⟩ (k + n)) :
    Fits ⟨data', room.map (fun room => room - k)⟩ n := by
  intro r hr
  cases room with
  | none => simp at hr
  | some room =>
    have := h room rfl
    simp at hr
    omega

theorem fits_mono (file : FILE) (k n : Nat) (h : Fits file n) (hk : k ≤ n) : Fits file k :=
  fun room hr => le_trans hk (h room hr)

theorem take_frame_bytes_all (p : Packet) (h : p.good 336) :
    (frame_bytes p).take (2 * (336 * 2)) = frame_bytes p :=
  List.take_of_length_le (by rw [frame_bytes_length p 336 h])

/-- A full batch that the budget does not touch (budget 0, or more than one
batch left): the whole frame is appended and the loop goes on. -/
theorem body_full (sr : Nat) (s : State) (p : Packet) (hp : p.good 336)
    (hb : s.buffer.length = 672) (hbudget : s.bytes_to_read = 0 ∨ 672 < s.bytes_to_read)
    (hroom : Fits s.file 1344) :
    ∃ (s1 : State) (rep : List Msg), body (config sr 336) s p = Step.next s1 ∧
      s1.do_exit = s.do_exit ∧ s1.bytes_to_read = s.bytes_to_read - 672 ∧
      s1.buffer.length = 672 ∧ s1.file.data = s.file.data ++ frame_bytes p ∧
      s1.file.room = s.file.room.map (fun room => room - 1344) ∧
      s1.stderr = s.stderr ++ rep ∧ IsReport rep ∧
      (¬ u32 (i32 (s.interval + 336)) > u32 (sr * interval_seconds) →
        rep = [] ∧ s1.interval = i32 (s.interval + 336)) := by
  have hit : ¬ (0 < s.bytes_to_read ∧ s.bytes_to_read ≤ 336 * 2) := by omega
  obtain ⟨t, rep, hf, hd, hbt, hbl, hbytes, herr, hrep, hquiet, hbody⟩ :=
    body_eq sr 336 s p hp (le_refl _) hb (by rw [if_neg hit]; exact hroom)
  rw [hbt, if_neg hit, if_neg (by omega)] at hbody
  refine ⟨_, rep, hbody, hd, ?_, hbl, ?_, ?_, herr, hrep, hquiet⟩
  · rfl
  · show t.file.data ++ _ = _
    rw [hbytes _ (by omega), hf, take_frame_bytes_all p hp]
  · show t.file.room.map _ = _
    rw [hf]

/-- The batch at which the budget runs out (`0 < bytes_to_read ≤ 672`): the
first `bytes_to_read` elements of the frame are appended, `do_exit` is set, and
the pass ends with `break` after the short-read message when
`bytes_to_read < 672`, at its end otherwise. -/
theorem body_last (sr : Nat) (s : State) (p : Packet) (hp : p.good 336)
    (hb : s.buffer.length = 672) (hpos : 0 < s.bytes_to_read) (hle : s.bytes_to_read ≤ 672)
    (hroom : Fits s.file (2 * s.bytes_to_read)) :
    ∃ (s1 : State) (rep : List Msg),
      body (config sr 336) s p =
        (if s.bytes_to_read < 672 then Step.brk s1 else Step.next s1) ∧
      s1.do_exit = true ∧
      s1.bytes_to_read = (if s.bytes_to_read < 672 then s.bytes_to_read else 0) ∧
      s1.file.data = s.file.data ++ (frame_bytes p).take (2 * s.bytes_to_read) ∧
      s1.stderr = s.stderr ++ rep ++
        (if s.bytes_to_read < 672 then [Msg.shortRead] else []) ∧
      IsReport rep ∧
      (¬ u32 (i32 (s.interval + 336)) > u32 (sr * interval_seconds) → rep = []) := by
  have hand : ∀ {a b : Prop}, (a ∧ b) → a := fun h => h.1
  have hit : 0 < s.bytes_to_read ∧ s.bytes_to_read ≤ 336 * 2 := by omega
  obtain ⟨t, rep, hf, hd, hbt, hbl, hbytes, herr, hrep, hquiet, hbody⟩ :=
    body_eq sr 336 s p hp (le_refl _) hb (by rw [if_pos hit]; exact hroom)
  rw [hbt, if_pos hit] at hbody
  by_cases hlt : s.bytes_to_read < 672
  · rw [if_pos hlt] at hbody
    refine ⟨_, rep, by rw [if_pos hlt]; exact hbody, rfl, ?_, ?_, ?_, hrep, fun h => hand (hquiet h)⟩
    · rw [if_pos hlt]
    · show t.file.data ++ _ = _
      rw [hbytes _ (by omega), hf]
    · show t.stderr ++ _ = _
      rw [herr, if_pos hlt]
  · rw [if_neg hlt] at hbody
    refine ⟨_, rep, by rw [if_neg hlt]; exact hbody, rfl, ?_, ?_, ?_, hrep, fun h => hand (hquiet h)⟩
    · rw [if_neg hlt]
    · show t.file.data ++ _ = _
      rw [hbytes _ (by omega), hf]
    · show t.stderr = _
      rw [herr, if_neg hlt, List.append_nil]

theorem flatMap_frame_bytes_length (B : Nat) :
    ∀ ps : List Packet, (∀ p ∈ ps, p.good B) →
      (ps.flatMap frame_bytes).length = 4 * B * ps.length
  | [], _ => by simp
  | p :: ps, h => by
    rw [List.flatMap_cons, List.length_append,
      frame_bytes_length p B (h p (List.mem_cons_self _ _)),
      flatMap_frame_bytes_length B ps (fun q hq => h q (List.mem_cons_of_mem _ hq)),
      List.length_cons]
    ring

/-- With an unbounded budget and batches of 336 pairs the loop consumes the
whole device script and is still running. -/
theorem run_unbounded (sr : Nat) :
    ∀ (ps : List Packet) (s : State), (∀ p ∈ ps, p.good 336) → s.do_exit = false →
      s.bytes_to_read = 0 → s.buffer.length = 672 → Fits s.file (1344 * ps.length) →
      ∃ (s' : State) (reps : List Msg), loop (config sr 336) s ps = Outcome.running s' ∧
        s'.do_exit = false ∧ s'.bytes_to_read = 0 ∧
        s'.file.data = s.file.data ++ ps.flatMap frame_bytes ∧
        s'.stderr = s.stderr ++ reps ∧
        (∀ m ∈ reps, ∃ a b c d e, m = Msg.levels a b c d e) := by
  intro ps
  induction ps with
  | nil =>
    intro s _ hd hb _ _
    exact ⟨s, [], by simp [loop, hd], hd, hb, by simp, by simp, by simp⟩
  | cons p ps ih =>
    intro s hps hd hb hlen hroom
    obtain ⟨s1, rep, hbody, hd1, hb1, hl1, hdata1, hroom1, herr1, hrep1, -⟩ :=
      body_full sr s p (hps p (List.mem_cons_self _ _)) hlen (Or.inl hb)
        (fits_mono _ _ _ hroom (by simp))
    have hfit : Fits s1.file (1344 * ps.length) := by
      have := fits_after s.file.data s1.file.data s.file.room 1344 (1344 * ps.length)
        (by simpa [Nat.mul_succ, Nat.add_comm] using hroom)
      rw [← hroom1] at this
      exact this
    obtain ⟨s', reps, hloop, hd', hb', hdata', herr', hreps⟩ :=
      ih s1 (fun q hq => hps q (List.mem_cons_of_mem _ hq)) (hd1.trans hd)
        (by rw [hb1, hb]) hl1 hfit
    refine ⟨s', rep ++ reps, ?_, hd', hb', ?_, ?_, ?_⟩
    · rw [loop_next _ _ _ _ _ hd hbody, hloop]
    · rw [hdata', hdata1, List.flatMap_cons, List.append_assoc]
    · rw [herr', herr1, List.append_assoc]
    · intro m hm
      rcases List.mem_append.mp hm with h | h
      · rcases hrep1 with h0 | ⟨a, b, c, d, e, h1⟩
        · rw [h0] at h; cases h
        · rw [h1] at h
          exact ⟨a, b, c, d, e, List.mem_singleton.mp h⟩
      · exact hreps m h

/-- With a budget of `b > 0` elements and batches of 336 pairs the loop requests
`⌈b / 672⌉` batches, writes all but the last in full and the first
`b - 672 * (⌈b / 672⌉ - 1)` elements of the last, and is left with `do_exit`
set. -/
theorem run_budget (sr : Nat) :
    ∀ (ps : List Packet) (s : State), (∀ p ∈ ps, p.good 336) → s.do_exit = false →
      0 < s.bytes_to_read → s.buffer.length = 672 → Fits s.file (2 * s.bytes_to_read) →
      (s.bytes_to_read + 671) / 672 ≤ ps.length →
      ∃ (full : List Packet) (last : Packet) (rest : List Packet) (s' : State),
        ps = full ++ last :: rest ∧ full.length + 1 = (s.bytes_to_read + 671) / 672 ∧
        loop (config sr 336) s ps = Outcome.done s' rest ∧ s'.do_exit = true ∧
        s'.file.data = s.file.data ++ full.flatMap frame_bytes ++
          (frame_bytes last).take (2 * (s.bytes_to_read - 672 * full.length)) := by
  intro ps
  induction ps with
  | nil =>
    intro s _ _ hpos _ _ hk
    simp only [List.length_nil] at hk
    omega
  | cons p ps ih =>
    intro s hps hd hpos hlen hroom hk
    have hp := hps p (List.mem_cons_self _ _)
    by_cases hle : s.bytes_to_read ≤ 672
    · obtain ⟨s1, rep, hbody, hd1, -, hdata1, -, -, -⟩ :=
        body_last sr s p hp hlen hpos hle hroom
      refine ⟨[], p, ps, s1, rfl, by simp only [List.length_nil]; omega, ?_, hd1, ?_⟩
      · by_cases hlt : s.bytes_to_read < 672
        · rw [if_pos hlt] at hbody
          exact loop_brk _ _ _ _ _ hd hbody
        · rw [if_neg hlt] at hbody
          rw [loop_next _ _ _ _ _ hd hbody, loop_do_exit _ _ _ hd1]
      · simpa using hdata1
    · obtain ⟨s1, rep, hbody, hd1, hb1, hl1, hdata1, hroom1, -, -, -⟩ :=
        body_full sr s p hp hlen (Or.inr (by omega)) (fits_mono _ _ _ hroom (by omega))
      have hfit : Fits s1.file (2 * s1.bytes_to_read) := by
        have := fits_after s.file.data s1.file.data s.file.room 1344 (2 * s1.bytes_to_read)
          (fits_mono _ _ _ hroom (by omega))
        rw [← hroom1] at this
        exact this
      simp only [List.length_cons] at hk
      obtain ⟨full, last, rest, s', hsplit, hcount, hloop, hd', hdata'⟩ :=
        ih s1 (fun q hq => hps q (List.mem_cons_of_mem _ hq)) (hd1.trans hd) (by omega) hl1
          hfit (by omega)
      refine ⟨p :: full, last, rest, s', by rw [hsplit]; rfl,
        by simp only [List.length_cons]; omega, ?_, hd', ?_⟩
      · rw [loop_next _ _ _ _ _ hd hbody, hloop]
      · rw [hdata', hdata1, hb1, List.flatMap_cons, List.length_cons]
        have : s.bytes_to_read - 672 - 672 * full.length =
            s.bytes_to_read - 672 * (full.length + 1) := by omega
        rw [this]
        simp only [List.append_assoc]

theorem bytes_to_read_of_eq (n : Nat) (h : n < 2147483648) : bytes_to_read_of n = 2 * n := by
  unfold bytes_to_read_of
  omega

theorem packet_of_good (B : Nat) (i q : Int) : (packet_of B i q).good B := by
  simp [Packet.good, packet_of]

theorem fits_empty_file (n : Nat) : Fits empty_file n := by
  intro room h
  simp [empty_file] at h

/-! ## The claims about the acquisition loop -/

/-- Claim C1: with batches of 336 pairs, a budget of `n` pairs (`1 ≤ n < 2^31`,
that is `2 * n` elements), every read successful and a sink that accepts
`4 * n` bytes, the loop requests exactly `⌈2n / 672⌉` batches (`full` and then
`last`) and leaves the others (`rest`) unrequested; it is left with `do_exit`
set; every batch of `full` is appended whole, the last is cut to the
`2n - 672 * |full|` elements that remained of the budget, and `2 * n` elements
(`4 * n` bytes) are appended in all. -/
theorem budget_run_persists_budget (sr n : Nat) (buffer : List Int) (file : FILE)
    (ps : List Packet) (hn1 : 1 ≤ n) (hn2 : n < 2147483648)
    (hbuf : buffer.length = out_block_size) (hroom : Fits file (4 * n))
    (hps : ∀ p ∈ ps, p.good 336) (hlen : (2 * n + 671) / 672 ≤ ps.length) :
    ∃ (full : List Packet) (last : Packet) (rest : List Packet) (s' : State),
      ps = full ++ last :: rest ∧ full.length + 1 = (2 * n + 671) / 672 ∧
      loop (config sr 336) (initial buffer (bytes_to_read_of n) file) ps =
        Outcome.done s' rest ∧
      s'.do_exit = true ∧
      s'.file.data = file.data ++ full.flatMap frame_bytes ++
        (frame_bytes last).take (2 * (2 * n - 672 * full.length)) ∧
      (full.flatMap frame_bytes).length = 2 * (672 * full.length) ∧
      ((frame_bytes last).take (2 * (2 * n - 672 * full.length))).length =
        2 * (2 * n - 672 * full.length) ∧
      0 < 2 * n - 672 * full.length ∧ 2 * n - 672 * full.length ≤ 672 ∧
      s'.file.data.length = file.data.length + 2 * (2 * n) := by
  have hb := bytes_to_read_of_eq n hn2
  obtain ⟨full, last, rest, s', hsplit, hcount, hloop, hd, hdata⟩ :=
    run_budget sr ps (initial buffer (bytes_to_read_of n) file) hps rfl
      (by show 0 < bytes_to_read_of n; omega) (by rw [← out_block_size_eq]; exact hbuf)
      (by show Fits file (2 * bytes_to_read_of n); rw [hb]
          exact fits_mono _ _ _ hroom (by omega))
      (by show (bytes_to_read_of n + 671) / 672 ≤ _; rw [hb]; exact hlen)
  have hb' : (initial buffer (bytes_to_read_of n) file).bytes_to_read = 2 * n := hb
  have hf' : (initial buffer (bytes_to_read_of n) file).file = file := rfl
  rw [hb'] at hcount hdata
  rw [hf'] at hdata
  have hfull : ∀ p ∈ full, p.good 336 := fun p hp =>
    hps p (by rw [hsplit]; exact List.mem_append_left _ hp)
  have hlast : last.good 336 :=
    hps last (by rw [hsplit]; exact List.mem_append_right _ (List.mem_cons_self _ _))
  have h1 := flatMap_frame_bytes_length 336 full hfull
  have h2 := frame_bytes_length last 336 hlast
  have h3 : ((frame_bytes last).take (2 * (2 * n - 672 * full.length))).length =
      2 * (2 * n - 672 * full.length) := by
    rw [List.length_take, h2]; omega
  refine ⟨full, last, rest, s', hsplit, hcount, hloop, hd, hdata, by rw [h1]; omega, h3,
    by omega, by omega, ?_⟩
  rw [hdata, List.length_append, List.length_append, h1, h3]
  omega

/-- Witness of claim C1 at `n = 500` with three batches on offer. -/
theorem budget_run_persists_budget_witness :
    1 ≤ 500 ∧ 500 < 2147483648 ∧ (List.replicate 672 (0 : Int)).length = out_block_size ∧
    Fits empty_file (4 * 500) ∧
    (∀ p ∈ [packet_of 336 1 (-1), packet_of 336 2 (-2), packet_of 336 3 (-3)], p.good 336) ∧
    (2 * 500 + 671) / 672 ≤
      [packet_of 336 1 (-1), packet_of 336 2 (-2), packet_of 336 3 (-3)].length ∧
    ∃ (full : List Packet) (last : Packet) (rest : List Packet) (s' : State),
      [packet_of 336 1 (-1), packet_of 336 2 (-2), packet_of 336 3 (-3)] =
        full ++ last :: rest ∧
      full.length + 1 = (2 * 500 + 671) / 672 ∧
      loop (config 2048000 336)
          (initial (List.replicate 672 0) (bytes_to_read_of 500) empty_file)
          [packet_of 336 1 (-1), packet_of 336 2 (-2), packet_of 336 3 (-3)] =
        Outcome.done s' rest ∧
      s'.do_exit = true ∧
      s'.file.data = empty_file.data ++ full.flatMap frame_bytes ++
        (frame_bytes last).take (2 * (2 * 500 - 672 * full.length)) ∧
      (full.flatMap frame_bytes).length = 2 * (672 * full.length) ∧
      ((frame_bytes last).take (2 * (2 * 500 - 672 * full.length))).length =
        2 * (2 * 500 - 672 * full.length) ∧
      0 < 2 * 500 - 672 * full.length ∧ 2 * 500 - 672 * full.length ≤ 672 ∧
      s'.file.data.length = empty_file.data.length + 2 * (2 * 500) :=
  have hps : ∀ p ∈ [packet_of 336 1 (-1), packet_of 336 2 (-2), packet_of 336 3 (-3)],
      p.good 336 := by
    intro p hp
    simp only [List.mem_cons, List.mem_singleton, List.not_mem_nil, or_false] at hp
    rcases hp with h | h | h <;> rw [h] <;> exact packet_of_good _ _ _
  ⟨by decide, by decide, by rw [List.length_replicate, out_block_size_eq], fits_empty_file _, hps, by decide,
    budget_run_persists_budget 2048000 500 (List.replicate 672 0) empty_file _ (by decide)
      (by decide) (by rw [List.length_replicate, out_block_size_eq]) (fits_empty_file _) hps (by decide)⟩

theorem fits_of_room_none (file : FILE) (h : file.room = none) (n : Nat) : Fits file n := by
  intro room hr
  rw [h] at hr
  cases hr

/-- Claim C2, the code at the failing input: with batches of 336 pairs and a
budget of 500 pairs the second pass writes the 328 elements that remain, sets
`do_exit`, and then takes the short-read branch: the status lines of the
session are "Short read, samples lost, exiting!" followed by "User cancel,
exiting...". -/
theorem budget_truncation_prints_short_read :
    ∃ s' : State,
      loop (config 2048000 336)
          (initial (List.replicate 672 0) (bytes_to_read_of 500) empty_file)
          [packet_of 336 1 (-1), packet_of 336 2 (-2), packet_of 336 3 (-3)] =
        Outcome.done s' [packet_of 336 3 (-3)] ∧
      s'.do_exit = true ∧ s'.bytes_to_read = 328 ∧
      (epilogue s').stderr = [Msg.shortRead, Msg.userCancel] := by
  obtain ⟨s1, rep1, hbody1, hd1, hb1, hl1, -, hroom1, herr1, -, hq1⟩ :=
    body_full 2048000 (initial (List.replicate 672 0) (bytes_to_read_of 500) empty_file)
      (packet_of 336 1 (-1)) (packet_of_good _ _ _)
      (by show (List.replicate 672 (0 : Int)).length = 672; rw [List.length_replicate])
      (Or.inr (by decide)) (fits_empty_file _)
  obtain ⟨hrep1, hint1⟩ := hq1 (by decide)
  have hb1' : s1.bytes_to_read = 328 := by rw [hb1]; rfl
  have hd1' : s1.do_exit = false := hd1
  obtain ⟨s2, rep2, hbody2, hd2, hb2, -, herr2, -, hq2⟩ :=
    body_last 2048000 s1 (packet_of 336 2 (-2)) (packet_of_good _ _ _) hl1
      (by omega) (by omega) (fits_of_room_none _ (by rw [hroom1]; rfl) _)
  have hrep2 := hq2 (by rw [hint1]; decide)
  rw [hb1', if_pos (by decide)] at hbody2 hb2 herr2
  refine ⟨s2, ?_, hd2, hb2, ?_⟩
  · rw [loop_next _ _ _ _ _ rfl hbody1, loop_brk _ _ _ _ _ hd1' hbody2]
  · simp only [epilogue, hd2, if_true, herr2, herr1, hrep1, hrep2]
    rfl

/-- Claim C4: with an unbounded budget (0), batches of 336 pairs, every read
successful and a sink that accepts every write, after any number
`k = ps.length` of passes the loop is still running (it is about to request
the next batch), the budget is still 0, `do_exit` is still unset, none of the
short-read, short-write or failed-read messages was printed, and the data
section has grown by `k * 336 * 4` bytes. -/
theorem unbounded_run_never_stops (sr : Nat) (buffer : List Int) (file : FILE)
    (ps : List Packet) (hbuf : buffer.length = out_block_size)
    (hps : ∀ p ∈ ps, p.good 336) (hroom : Fits file (ps.length * (336 * 4))) :
    ∃ s' : State,
      loop (config sr 336) (initial buffer 0 file) ps = Outcome.running s' ∧
      s'.bytes_to_read = 0 ∧ s'.do_exit = false ∧
      Msg.shortRead ∉ s'.stderr ∧ Msg.shortWrite ∉ s'.stderr ∧
      Msg.readPacketFailed ∉ s'.stderr ∧
      s'.file.data.length = file.data.length + ps.length * (336 * 4) := by
  obtain ⟨s', reps, hloop, hd, hb, hdata, herr, hreps⟩ :=
    run_unbounded sr ps (initial buffer 0 file) hps rfl rfl
      (by rw [← out_block_size_eq]; exact hbuf) (fits_mono _ _ _ hroom (by omega))
  have herr' : s'.stderr = reps := by rw [herr]; rfl
  have hno : ∀ m, (∀ a b c d e, m ≠ Msg.levels a b c d e) → m ∉ s'.stderr := by
    intro m hm hmem
    rw [herr'] at hmem
    obtain ⟨a, b, c, d, e, h⟩ := hreps m hmem
    exact hm a b c d e h
  refine ⟨s', hloop, hb, hd, hno _ (by intros; simp), hno _ (by intros; simp),
    hno _ (by intros; simp), ?_⟩
  rw [hdata, List.length_append, flatMap_frame_bytes_length 336 ps hps]
  show file.data.length + _ = _
  ring

/-- Witness of claim C4: 100 batches of 336 pairs at sample rate 2,048,000 leave
the loop running with 134,400 bytes in the data section. -/
theorem unbounded_run_never_stops_witness :
    (List.replicate 672 (0 : Int)).length = out_block_size ∧
    (∀ p ∈ List.replicate 100 (packet_of 336 5 7), p.good 336) ∧
    Fits empty_file ((List.replicate 100 (packet_of 336 5 7)).length * (336 * 4)) ∧
    ∃ s' : State,
      loop (config 2048000 336) (initial (List.replicate 672 0) 0 empty_file)
          (List.replicate 100 (packet_of 336 5 7)) = Outcome.running s' ∧
      s'.bytes_to_read = 0 ∧ s'.do_exit = false ∧
      Msg.shortRead ∉ s'.stderr ∧ Msg.shortWrite ∉ s'.stderr ∧
      Msg.readPacketFailed ∉ s'.stderr ∧
      s'.file.data.length = 134400 :=
  have hps : ∀ p ∈ List.replicate 100 (packet_of 336 5 7), p.good 336 := by
    intro p hp
    rw [(List.mem_replicate.mp hp).2]
    exact packet_of_good _ _ _
  ⟨by rw [List.length_replicate, out_block_size_eq], hps, fits_empty_file _, by
    obtain ⟨s', h1, h2, h3, h4, h5, h6, h7⟩ :=
      unbounded_run_never_stops 2048000 (List.replicate 672 0) empty_file
        (List.replicate 100 (packet_of 336 5 7))
        (by rw [List.length_replicate, out_block_size_eq]) hps (fits_empty_file _)
    refine ⟨s', h1, h2, h3, h4, h5, h6, ?_⟩
    rw [h7, List.length_replicate]
    rfl⟩

/-! ## The interleave step -/

theorem frame_getElem? : ∀ (ibuf qbuf : List Int) (k : Nat), k < ibuf.length → k < qbuf.length →
    (frame ibuf qbuf)[2 * k]? = ibuf[k]? ∧ (frame ibuf qbuf)[2 * k + 1]? = qbuf[k]?
  | [], _, _, h, _ => by simp at h
  | _ :: _, [], _, _, h => by simp at h
  | x :: xs, y :: ys, 0, _, _ => by simp [frame]
  | x :: xs, y :: ys, k + 1, h, h' => by
    have ih := frame_getElem? xs ys k (by simpa using h) (by simpa using h')
    have e : 2 * (k + 1) = 2 * k + 1 + 1 := by ring
    simp only [frame, e, List.getElem?_cons_succ]
    exact ih

/-- The interleave step on a buffer with room for the batch: the buffer keeps
its length, element `2k` becomes `ibuf[k]` and element `2k + 1` becomes
`qbuf[k]` for every `k < B`, and the elements from `2 * B` on are untouched. -/
theorem interleave_within_buffer (ibuf qbuf buffer : List Int) (B : Nat)
    (hi : ibuf.length = B) (hq : qbuf.length = B) (hb : 2 * B ≤ buffer.length) :
    ∃ buffer' : List Int, interleave ibuf qbuf B buffer = some buffer' ∧
      buffer'.length = buffer.length ∧ buffer'.take (2 * B) = frame ibuf qbuf ∧
      buffer'.drop (2 * B) = buffer.drop (2 * B) ∧
      ∀ k, k < B → buffer'[2 * k]? = ibuf[k]? ∧ buffer'[2 * k + 1]? = qbuf[k]? := by
  have hfl := frame_length ibuf qbuf B hi hq
  refine ⟨_, interleave_eq ibuf qbuf buffer B hi hq hb, ?_, ?_, ?_, ?_⟩
  · rw [List.length_append, List.length_drop, hfl]; omega
  · rw [List.take_append_of_le_length (by omega), List.take_of_length_le (by omega)]
  · rw [List.drop_append_of_le_length (by omega), List.drop_of_length_le (by omega),
      List.nil_append]
  · intro k hk
    have := frame_getElem? ibuf qbuf k (by omega) (by omega)
    rw [List.getElem?_append_left (by omega), List.getElem?_append_left (by omega)]
    exact this

/-- The interleave loop with more elements still to store than the buffer has
left runs off the end of the buffer. -/
theorem interleave_loop_overflow (ibuf qbuf : List Int) :
    ∀ (n i : Nat) (pre post : List Int), post.length < 2 * n →
      i + n ≤ ibuf.length → i + n ≤ qbuf.length →
      interleave_loop ibuf qbuf n i pre.length (pre ++ post) = none := by
  intro n
  induction n with
  | zero => intro i pre post h _ _; omega
  | succ n ih =>
    intro i pre post hp hi hq
    have hi' : i < ibuf.length := by omega
    have hq' : i < qbuf.length := by omega
    match post, hp with
    | [], _ =>
      simp [interleave_loop, List.getElem?_eq_getElem hi', store]
    | [a], _ =>
      have e1 : store (pre ++ [a]) pre.length ibuf[i] = some (pre ++ [ibuf[i]]) :=
        store_at_length _ _ _ _
      simp only [interleave_loop, List.getElem?_eq_getElem hi', List.getElem?_eq_getElem hq', e1]
      simp [store]
    | a :: b :: post, hp =>
      have e1 : store (pre ++ a :: b :: post) pre.length ibuf[i] =
          some (pre ++ ibuf[i] :: b :: post) := store_at_length _ _ _ _
      have e2 : store (pre ++ ibuf[i] :: b :: post) (pre.length + 1) qbuf[i] =
          some ((pre ++ [ibuf[i], qbuf[i]]) ++ post) := by
        have := store_at_length (pre ++ [ibuf[i]]) b qbuf[i] post
        simpa using this
      have e3 := ih (i + 1) (pre ++ [ibuf[i], qbuf[i]]) post
        (by simp at hp; omega) (by omega) (by omega)
      have e4 : (pre ++ [ibuf[i], qbuf[i]]).length = pre.length + 2 := by simp
      rw [e4] at e3
      simp only [interleave_loop, List.getElem?_eq_getElem hi', List.getElem?_eq_getElem hq',
        e1, e2, e3]

/-- Claim C5, the code at the failing input: with the 672 element buffer that
`main` allocates and a batch of 337 pairs, the interleave loop stores to
`buffer[672]`, outside the allocation, so no 674 element frame is produced;
and a pass of the loop body over such a batch ends in that fault. -/
theorem interleave_overflows_fixed_buffer :
    interleave (List.replicate 337 1) (List.replicate 337 (-1)) 337
        (List.replicate out_block_size 0) = none ∧
    body (config 2048000 337) (initial (List.replicate out_block_size 0) 0 empty_file)
        (packet_of 337 1 (-1)) = Step.fault := by
  have h : interleave (List.replicate 337 1) (List.replicate 337 (-1)) 337
      (List.replicate out_block_size 0) = none := by
    have := interleave_loop_overflow (List.replicate 337 1) (List.replicate 337 (-1)) 337 0 []
      (List.replicate out_block_size 0)
      (by rw [List.length_replicate, out_block_size_eq]; omega)
      (by rw [List.length_replicate]) (by rw [List.length_replicate])
    exact this
  refine ⟨h, ?_⟩
  have h' : interleave (packet_of 337 1 (-1)).ibuf (packet_of 337 1 (-1)).qbuf
      (config 2048000 337).samplesPerPacket
      (initial (List.replicate out_block_size 0) 0 empty_file).buffer = none := h
  have hr : (packet_of 337 1 (-1)).r = mir_sdr_Success := rfl
  simp only [body, hr, ne_eq, not_true_eq_false, if_false, h']

/-- Claim C6: with batches of 336 pairs, an unbounded budget, every read
successful and a sink that accepts every write, after `N = ps.length` passes
the loop is still running and the data section is what it was before followed
by the frames of batch 1, batch 2, ..., batch `N` in that order, each frame
being its samples I, Q, I, Q, ... at two bytes each, least significant byte
first; this holds whatever the buffer held at the start. -/
theorem unbounded_run_data_in_order (sr : Nat) (buffer : List Int) (file : FILE)
    (ps : List Packet) (hbuf : buffer.length = out_block_size)
    (hps : ∀ p ∈ ps, p.good 336) (hroom : Fits file (ps.length * (336 * 4))) :
    ∃ s' : State,
      loop (config sr 336) (initial buffer 0 file) ps = Outcome.running s' ∧
      s'.file.data = file.data ++ ps.flatMap frame_bytes := by
  obtain ⟨s', reps, hloop, -, -, hdata, -, -⟩ :=
    run_unbounded sr ps (initial buffer 0 file) hps rfl rfl
      (by rw [← out_block_size_eq]; exact hbuf) (fits_mono _ _ _ hroom (by omega))
  exact ⟨s', hloop, hdata⟩

/-- Witness of claim C6: three different batches arrive in the file in the
order they were read. -/
theorem unbounded_run_data_in_order_witness :
    (List.replicate 672 (9 : Int)).length = out_block_size ∧
    (∀ p ∈ [packet_of 336 1 (-1), packet_of 336 2 (-2), packet_of 336 3 (-3)], p.good 336) ∧
    Fits empty_file
      ([packet_of 336 1 (-1), packet_of 336 2 (-2), packet_of 336 3 (-3)].length * (336 * 4)) ∧
    ∃ s' : State,
      loop (config 2048000 336) (initial (List.replicate 672 9) 0 empty_file)
          [packet_of 336 1 (-1), packet_of 336 2 (-2), packet_of 336 3 (-3)] =
        Outcome.running s' ∧
      s'.file.data = empty_file.data ++
        [packet_of 336 1 (-1), packet_of 336 2 (-2), packet_of 336 3 (-3)].flatMap
          frame_bytes :=
  have hps : ∀ p ∈ [packet_of 336 1 (-1), packet_of 336 2 (-2), packet_of 336 3 (-3)],
      p.good 336 := by
    intro p hp
    simp only [List.mem_cons, List.mem_singleton, List.not_mem_nil, or_false] at hp
    rcases hp with h | h | h <;> rw [h] <;> exact packet_of_good _ _ _
  ⟨by rw [List.length_replicate, out_block_size_eq], hps, fits_empty_file _,
    unbounded_run_data_in_order 2048000 (List.replicate 672 9) empty_file _
      (by rw [List.length_replicate, out_block_size_eq]) hps (fits_empty_file _)⟩

/-! ## The file only grows -/

theorem fwrite_data (ptr : List Nat) (size nmemb : Nat) (file : FILE) :
    ∃ more, (fwrite ptr size nmemb file).2.data = file.data ++ more :=
  ⟨_, rfl⟩

theorem persist_appends (c : Config) (t s1 : State)
    (h : persist c t = Step.next s1 ∨ persist c t = Step.brk s1) :
    ∃ more, s1.file.data = t.file.data ++ more := by
  unfold persist at h
  simp only at h
  split_ifs at h <;> rcases h with h | h <;> cases h <;> exact fwrite_data _ _ _ _

theorem body_appends (c : Config) (s s1 : State) (p : Packet)
    (h : body c s p = Step.next s1 ∨ body c s p = Step.brk s1) :
    ∃ more, s1.file.data = s.file.data ++ more := by
  unfold body at h
  split at h
  · rcases h with h | h
    · cases h
    · injection h with h
      rw [← h]
      exact ⟨[], by simp⟩
  · split at h
    · rcases h with h | h <;> cases h
    · split at h
      · rcases h with h | h <;> cases h
      · obtain ⟨more, hmore⟩ := persist_appends _ _ _ h
        rw [report_file] at hmore
        exact ⟨more, hmore⟩

/-- Whatever the device and the sink do, the bytes that were in the file before
the loop are still there, in place, afterwards: the loop only appends. -/
theorem loop_appends (c : Config) :
    ∀ (ps : List Packet) (s s' : State), (loop c s ps).state? = some s' →
      ∃ more, s'.file.data = s.file.data ++ more := by
  intro ps
  induction ps with
  | nil =>
    intro s s' h
    unfold loop at h
    split at h <;> (simp only [Outcome.state?, Option.some.injEq] at h; exact ⟨[], by simp [h]⟩)
  | cons p ps ih =>
    intro s s' h
    unfold loop at h
    split at h
    · simp only [Outcome.state?, Option.some.injEq] at h
      exact ⟨[], by simp [h]⟩
    · split at h
      next s1 hb =>
        obtain ⟨m1, h1⟩ := body_appends c s s1 p (Or.inl hb)
        obtain ⟨m2, h2⟩ := ih s1 s' h
        exact ⟨m1 ++ m2, by rw [h2, h1, List.append_assoc]⟩
      next s1 hb =>
        obtain ⟨m1, h1⟩ := body_appends c s s1 p (Or.inr hb)
        simp only [Outcome.state?, Option.some.injEq] at h
        exact ⟨m1, by rw [← h, h1]⟩
      next => simp [Outcome.state?] at h

/-! ## The claims about the preamble -/

/-- Claim C7: for every sample rate, center frequency and start time, when the
sink accepts the 104 bytes (every write is complete), `wave_header` returns
and has appended, in this order, the 12 byte container header, the 8 byte
format block header, the 16 byte format payload, the 8 byte metadata block
header, the 52 byte metadata payload and the 8 byte data block header: 104
bytes whatever the arguments. -/
theorem wave_header_preamble_layout (file : FILE) (samp_rate frequency bits_per_sample : Nat)
    (now : tm) (h : Fits file 104) :
    ∃ file' : FILE, wave_header file samp_rate frequency bits_per_sample now = some file' ∧
      file'.data = file.data ++
        (wave_header_riff.bytes ++ wave_header_fmt_chunk.bytes ++
          (wave_header_fmt samp_rate bits_per_sample).bytes ++ wave_header_auxi_chunk.bytes ++
          (wave_header_auxi frequency now).bytes ++ wave_header_data_chunk.bytes) ∧
      wave_header_riff.bytes.length = 12 ∧ wave_header_fmt_chunk.bytes.length = 8 ∧
      (wave_header_fmt samp_rate bits_per_sample).bytes.length = 16 ∧
      wave_header_auxi_chunk.bytes.length = 8 ∧
      (wave_header_auxi frequency now).bytes.length = 52 ∧
      wave_header_data_chunk.bytes.length = 8 ∧
      file'.data.length = file.data.length + 104 := by
  refine ⟨_, wave_header_ok file samp_rate frequency bits_per_sample now h, rfl,
    wave_header_riff_length, wave_header_fmt_chunk_length, wave_header_fmt_length _ _,
    wave_header_auxi_chunk_length, wave_header_auxi_length _ _, wave_header_data_chunk_length,
    ?_⟩
  show (file.data ++ preamble samp_rate frequency bits_per_sample now).length = _
  rw [List.length_append, preamble_length]

/-- Witness of claim C7 on an empty file. -/
theorem wave_header_preamble_layout_witness :
    Fits empty_file 104 ∧
    ∃ file' : FILE, wave_header empty_file 2048000 100000000 16 noon = some file' ∧
      file'.data = empty_file.data ++
        (wave_header_riff.bytes ++ wave_header_fmt_chunk.bytes ++
          (wave_header_fmt 2048000 16).bytes ++ wave_header_auxi_chunk.bytes ++
          (wave_header_auxi 100000000 noon).bytes ++ wave_header_data_chunk.bytes) ∧
      wave_header_riff.bytes.length = 12 ∧ wave_header_fmt_chunk.bytes.length = 8 ∧
      (wave_header_fmt 2048000 16).bytes.length = 16 ∧
      wave_header_auxi_chunk.bytes.length = 8 ∧
      (wave_header_auxi 100000000 noon).bytes.length = 52 ∧
      wave_header_data_chunk.bytes.length = 8 ∧
      file'.data.length = empty_file.data.length + 104 :=
  ⟨fits_empty_file _,
    wave_header_preamble_layout empty_file 2048000 100000000 16 noon (fits_empty_file _)⟩

/-- Claim C8: in the preamble `wave_header` wrote, whatever its arguments, bytes
0..3 are "RIFF", bytes 4..7 are the sentinel `0xFFFFFFFF`, bytes 8..11 are
"WAVE", and after 84 more bytes come "data" and again the sentinel
`0xFFFFFFFF` as the last four bytes; and whatever the loop does afterwards, the
file it leaves is the file it found followed by more bytes, so these fields are
never rewritten. -/
theorem wave_header_sentinels (file : FILE) (samp_rate frequency bits_per_sample : Nat)
    (now : tm) (c : Config) (s s' : State) (ps : List Packet)
    (hw : wave_header file samp_rate frequency bits_per_sample now = some s.file)
    (hl : (loop c s ps).state? = some s') :
    ∃ mid more : List Nat, mid.length = 84 ∧
      s.file.data = file.data ++
        (['R', 'I', 'F', 'F'].map Char.toNat ++ [255, 255, 255, 255] ++
          ['W', 'A', 'V', 'E'].map Char.toNat ++ mid ++
          ['d', 'a', 't', 'a'].map Char.toNat ++ [255, 255, 255, 255]) ∧
      s'.file.data = s.file.data ++ more ∧
      leValue [255, 255, 255, 255] = 4294967295 := by
  obtain ⟨more, hmore⟩ := loop_appends c ps s s' hl
  have hdata := wave_header_data _ _ _ _ _ _ hw
  have e1 : wave_header_riff.bytes =
      ['R', 'I', 'F', 'F'].map Char.toNat ++ [255, 255, 255, 255] ++
        ['W', 'A', 'V', 'E'].map Char.toNat := by decide
  have e6 : wave_header_data_chunk.bytes =
      ['d', 'a', 't', 'a'].map Char.toNat ++ [255, 255, 255, 255] := by decide
  refine ⟨wave_header_fmt_chunk.bytes ++ (wave_header_fmt samp_rate bits_per_sample).bytes ++
    wave_header_auxi_chunk.bytes ++ (wave_header_auxi frequency now).bytes, more, ?_, ?_,
    hmore, by decide⟩
  · simp only [List.length_append, wave_header_fmt_chunk_length, wave_header_fmt_length,
      wave_header_auxi_chunk_length, wave_header_auxi_length]
  · rw [hdata, preamble, e1, e6]
    simp only [List.append_assoc]

/-- Witness of claim C8: the preamble on an empty file, then a pass of the loop
whose read fails. -/
theorem wave_header_sentinels_witness :
    wave_header empty_file 2048000 100000000 16 noon =
      some (initial (List.replicate 672 0) 0 header_file).file ∧
    (loop (config 2048000 336) (initial (List.replicate 672 0) 0 header_file)
        [{ r := -1, ibuf := [], qbuf := [] }]).state? =
      some { initial (List.replicate 672 0) 0 header_file with
        r := -1, stderr := [Msg.readPacketFailed] } ∧
    ∃ mid more : List Nat, mid.length = 84 ∧
      (initial (List.replicate 672 0) 0 header_file).file.data = empty_file.data ++
        (['R', 'I', 'F', 'F'].map Char.toNat ++ [255, 255, 255, 255] ++
          ['W', 'A', 'V', 'E'].map Char.toNat ++ mid ++
          ['d', 'a', 't', 'a'].map Char.toNat ++ [255, 255, 255, 255]) ∧
      ({ initial (List.replicate 672 0) 0 header_file with
        r := -1, stderr := [Msg.readPacketFailed] } : State).file.data =
        (initial (List.replicate 672 0) 0 header_file).file.data ++ more ∧
      leValue [255, 255, 255, 255] = 4294967295 :=
  have hw : wave_header empty_file 2048000 100000000 16 noon =
      some (initial (List.replicate 672 0) 0 header_file).file :=
    wave_header_ok empty_file 2048000 100000000 16 noon (fits_empty_file _)
  have hl : (loop (config 2048000 336) (initial (List.replicate 672 0) 0 header_file)
        [{ r := -1, ibuf := [], qbuf := [] }]).state? =
      some { initial (List.replicate 672 0) 0 header_file with
        r := -1, stderr := [Msg.readPacketFailed] } := rfl
  ⟨hw, hl, wave_header_sentinels empty_file 2048000 100000000 16 noon (config 2048000 336)
    (initial (List.replicate 672 0) 0 header_file) _ _ hw hl⟩

/-- Counterexample to claim C9: at a sample rate of `2^30` the byte-rate field
(bytes 28..31 of the file) holds 0, not `4 * 2^30`. -/
theorem byte_rate_wraps :
    (wave_header empty_file 1073741824 100000000 16 noon).map
        (fun f => leValue ((f.data.drop 28).take 4)) = some 0 ∧
    (0 : Nat) ≠ 4 * 1073741824 := by
  decide

/-- Claim C9 as amended: for every 32-bit sample rate, the format block that
`wave_header` (called with 16 bits per sample) writes after the 12 byte
container header is the tag "fmt ", the size 16, and a 16 byte payload holding,
little-endian and in this order, format code 1, channel count 2, the sample
rate, the byte rate `4 * samp_rate` reduced modulo `2^32`, frame size 4 and
bits per sample 16. -/
theorem wave_header_format_block (file : FILE) (samp_rate frequency : Nat) (now : tm)
    (h : Fits file 104) (hsr : samp_rate < 4294967296) :
    ∃ (file' : FILE) (tail : List Nat),
      wave_header file samp_rate frequency 16 now = some file' ∧
      wave_header_riff.bytes.length = 12 ∧
      file'.data = file.data ++ wave_header_riff.bytes ++
        (['f', 'm', 't', ' '].map Char.toNat ++ le32 16 ++
          (le16 1 ++ le16 2 ++ le32 samp_rate ++ le32 (4 * samp_rate % 4294967296) ++
            le16 4 ++ le16 16)) ++ tail ∧
      (le16 1 ++ le16 2 ++ le32 samp_rate ++ le32 (4 * samp_rate % 4294967296) ++
        le16 4 ++ le16 16).length = 16 := by
  refine ⟨_, wave_header_auxi_chunk.bytes ++ (wave_header_auxi frequency now).bytes ++
    wave_header_data_chunk.bytes, wave_header_ok file samp_rate frequency 16 now h,
    wave_header_riff_length, ?_, by simp [le16, le32]⟩
  have e2 : wave_header_fmt_chunk.bytes = ['f', 'm', 't', ' '].map Char.toNat ++ le32 16 := by
    decide
  have e3 : (wave_header_fmt samp_rate 16).bytes =
      le16 1 ++ le16 2 ++ le32 samp_rate ++ le32 (4 * samp_rate % 4294967296) ++
        le16 4 ++ le16 16 := by
    simp only [wave_header_fmt, fmt_t.bytes, Nat.mod_eq_of_lt hsr]
  show file.data ++ preamble samp_rate frequency 16 now = _
  rw [preamble, e2, e3]
  simp only [List.append_assoc]

/-- Witness of the amended claim C9 at the default sample rate. -/
theorem wave_header_format_block_witness :
    Fits empty_file 104 ∧ 2048000 < 4294967296 ∧
    ∃ (file' : FILE) (tail : List Nat),
      wave_header empty_file 2048000 100000000 16 noon = some file' ∧
      wave_header_riff.bytes.length = 12 ∧
      file'.data = empty_file.data ++ wave_header_riff.bytes ++
        (['f', 'm', 't', ' '].map Char.toNat ++ le32 16 ++
          (le16 1 ++ le16 2 ++ le32 2048000 ++ le32 (4 * 2048000 % 4294967296) ++
            le16 4 ++ le16 16)) ++ tail ∧
      (le16 1 ++ le16 2 ++ le32 2048000 ++ le32 (4 * 2048000 % 4294967296) ++
        le16 4 ++ le16 16).length = 16 :=
  ⟨fits_empty_file _, by decide,
    wave_header_format_block empty_file 2048000 100000000 noon (fits_empty_file _) (by decide)⟩

/-- Counterexample to claim C10: at the default sample rate 2,048,000 the
sample-frequency field of the metadata payload (bytes 80..83 of the file) holds
0, not the sample rate, while the center-frequency field before it (bytes
76..79) holds the center frequency. -/
theorem auxi_sample_frequency_unset :
    (wave_header empty_file 2048000 100000000 16 noon).map
        (fun f => (leValue ((f.data.drop 76).take 4), leValue ((f.data.drop 80).take 4))) =
      some (100000000, 0) ∧
    (0 : Nat) ≠ 2048000 := by
  decide

/-- Claim C10 as amended: for every sample rate and every 32-bit center
frequency, the metadata block that `wave_header` writes after the first 36
bytes is the tag "auxi", the size 52, and a 52 byte payload made of the start
timestamp (year, month, 0, day, hour, minute, second, 0 as 16-bit fields), a
zero-filled stop timestamp of 16 bytes, the center frequency as a 32-bit
little-endian field, and 16 zero bytes: the sample-frequency field is 0
whatever the sample rate, as are the three fields after it.  The data block
header follows. -/
theorem wave_header_metadata_block (file : FILE) (samp_rate frequency bits_per_sample : Nat)
    (now : tm) (h : Fits file 104) (hf : frequency < 4294967296) :
    ∃ (file' : FILE) (head : List Nat),
      wave_header file samp_rate frequency bits_per_sample now = some file' ∧
      head.length = 36 ∧
      file'.data = file.data ++ head ++
        (['a', 'u', 'x', 'i'].map Char.toNat ++ le32 52 ++
          ((le16 (u16 (now.tm_year + 1900)) ++ le16 (u16 (now.tm_mon + 1)) ++ le16 0 ++
              le16 (u16 now.tm_mday) ++ le16 (u16 now.tm_hour) ++ le16 (u16 now.tm_min) ++
              le16 (u16 now.tm_sec) ++ le16 0) ++
            List.replicate 16 0 ++ le32 frequency ++ le32 0 ++ List.replicate 12 0)) ++
        wave_header_data_chunk.bytes ∧
      ((le16 (u16 (now.tm_year + 1900)) ++ le16 (u16 (now.tm_mon + 1)) ++ le16 0 ++
          le16 (u16 now.tm_mday) ++ le16 (u16 now.tm_hour) ++ le16 (u16 now.tm_min) ++
          le16 (u16 now.tm_sec) ++ le16 0) ++
        List.replicate 16 0 ++ le32 frequency ++ le32 0 ++ List.replicate 12 0).length = 52 := by
  refine ⟨_, wave_header_riff.bytes ++ wave_header_fmt_chunk.bytes ++
    (wave_header_fmt samp_rate bits_per_sample).bytes,
    wave_header_ok file samp_rate frequency bits_per_sample now h, ?_, ?_,
    by simp [le16, le32]⟩
  · simp only [List.length_append, wave_header_riff_length, wave_header_fmt_chunk_length,
      wave_header_fmt_length]
  · have e4 : wave_header_auxi_chunk.bytes = ['a', 'u', 'x', 'i'].map Char.toNat ++ le32 52 := by
      decide
    have e5 : (wave_header_auxi frequency now).bytes =
        (le16 (u16 (now.tm_year + 1900)) ++ le16 (u16 (now.tm_mon + 1)) ++ le16 0 ++
            le16 (u16 now.tm_mday) ++ le16 (u16 now.tm_hour) ++ le16 (u16 now.tm_min) ++
            le16 (u16 now.tm_sec) ++ le16 0) ++
          List.replicate 16 0 ++ le32 frequency ++ le32 0 ++ List.replicate 12 0 := by
      simp only [wave_header_auxi, auxi_t.bytes, auxi_t.zero, datetime_t.bytes, set_datetime,
        datetime_t.zero, Nat.mod_eq_of_lt hf]
      simp [le16, le32, List.replicate]
    show file.data ++ preamble samp_rate frequency bits_per_sample now = _
    rw [preamble, e4, e5]
    simp only [List.append_assoc]

/-- Witness of the amended claim C10 at the default sample rate and 100 MHz. -/
theorem wave_header_metadata_block_witness :
    Fits empty_file 104 ∧ 100000000 < 4294967296 ∧
    ∃ (file' : FILE) (head : List Nat),
      wave_header empty_file 2048000 100000000 16 noon = some file' ∧
      head.length = 36 ∧
      file'.data = empty_file.data ++ head ++
        (['a', 'u', 'x', 'i'].map Char.toNat ++ le32 52 ++
          ((le16 (u16 (noon.tm_year + 1900)) ++ le16 (u16 (noon.tm_mon + 1)) ++ le16 0 ++
              le16 (u16 noon.tm_mday) ++ le16 (u16 noon.tm_hour) ++ le16 (u16 noon.tm_min) ++
              le16 (u16 noon.tm_sec) ++ le16 0) ++
            List.replicate 16 0 ++ le32 100000000 ++ le32 0 ++ List.replicate 12 0)) ++
        wave_header_data_chunk.bytes ∧
      ((le16 (u16 (noon.tm_year + 1900)) ++ le16 (u16 (noon.tm_mon + 1)) ++ le16 0 ++
          le16 (u16 noon.tm_mday) ++ le16 (u16 noon.tm_hour) ++ le16 (u16 noon.tm_min) ++
          le16 (u16 noon.tm_sec) ++ le16 0) ++
        List.replicate 16 0 ++ le32 100000000 ++ le32 0 ++ List.replicate 12 0).length = 52 :=
  ⟨fits_empty_file _, by decide,
    wave_header_metadata_block empty_file 2048000 100000000 16 noon (fits_empty_file _)
      (by decide)⟩

/-! ## Short transfers -/

/-- An element-wise `fwrite` of `n` shorts into a sink with room for fewer:
`room / 2` elements are written and that count is returned. -/
theorem fwrite_shorts_short (ptr : List Nat) (n room : Nat) (file : FILE)
    (hroom : file.room = some room) (h : room / 2 < n) :
    fwrite ptr 2 n file =
      (room / 2, { data := file.data ++ ptr.take (2 * (room / 2)),
                   room := some (room - 2 * (room / 2)) }) := by
  obtain ⟨data, r⟩ := file
  simp only at hroom
  subst hroom
  have : min n (room / 2) = room / 2 := by omega
  simp [fwrite, this]

/-- Line 400-417 when the sink accepts fewer elements than `n_read`: the
accepted elements are appended, the short-write line is printed, and the pass
ends with `break` before the budget is touched. -/
theorem persist_short (c : Config) (t : State) (room : Nat)
    (hs : c.samplesPerPacket * 2 < 4294967296)
    (hle : c.samplesPerPacket * 2 ≤ t.buffer.length)
    (hroom : t.file.room = some room)
    (hshort : room / 2 < (if 0 < t.bytes_to_read ∧ t.bytes_to_read ≤ c.samplesPerPacket * 2
      then t.bytes_to_read else c.samplesPerPacket * 2)) :
    persist c t =
      Step.brk { t with
        do_exit := if 0 < t.bytes_to_read ∧ t.bytes_to_read ≤ c.samplesPerPacket * 2
          then true else t.do_exit
        file := ⟨t.file.data ++ (shorts_bytes t.buffer).take (2 * (room / 2)),
          some (room - 2 * (room / 2))⟩
        stderr := t.stderr ++ [Msg.shortWrite] } := by
  have hm : c.samplesPerPacket * 2 % 4294967296 = c.samplesPerPacket * 2 := Nat.mod_eq_of_lt hs
  by_cases hit : 0 < t.bytes_to_read ∧ t.bytes_to_read ≤ c.samplesPerPacket * 2
  · have h3 : ¬ t.bytes_to_read > t.buffer.length := by omega
    rw [if_pos hit] at hshort
    have hne : room / 2 ≠ t.bytes_to_read := by omega
    simp only [persist, hm, hit, and_self, decide_True, if_true, h3, if_false,
      fwrite_shorts_short _ _ _ _ hroom hshort, ne_eq, hne, not_false_eq_true]
  · have h3 : ¬ c.samplesPerPacket * 2 > t.buffer.length := by omega
    rw [if_neg hit] at hshort
    have hne : room / 2 ≠ c.samplesPerPacket * 2 := by omega
    simp only [persist, hm, hit, decide_False, if_false, h3,
      fwrite_shorts_short _ _ _ _ hroom hshort, ne_eq, hne, not_false_eq_true, if_true,
      Bool.false_eq_true]

/-- Claim C11: when, in a pass over a successfully read batch, the sink accepts
fewer elements (`room / 2`) than the pass asks it to write, the loop is left in
that pass: the accepted elements of the frame are appended after everything
that was in the file and nothing else is (the write is not retried), the
short-write line is printed, the remaining budget is what it was, and the
batches still on offer are never requested. -/
theorem short_write_stops_loop (c : Config) (s : State) (p : Packet) (ps : List Packet)
    (room : Nat) (hd : s.do_exit = false) (hp : p.good c.samplesPerPacket)
    (hs : c.samplesPerPacket * 2 < 4294967296)
    (hbuf : 2 * c.samplesPerPacket ≤ s.buffer.length)
    (hroom : s.file.room = some room)
    (hshort : room / 2 < (if 0 < s.bytes_to_read ∧ s.bytes_to_read ≤ c.samplesPerPacket * 2
      then s.bytes_to_read else c.samplesPerPacket * 2)) :
    ∃ (s1 : State) (rep : List Msg),
      loop c s (p :: ps) = Outcome.done s1 ps ∧
      s1.bytes_to_read = s.bytes_to_read ∧
      s1.file.data = s.file.data ++ (frame_bytes p).take (2 * (room / 2)) ∧
      s1.stderr = s.stderr ++ rep ++ [Msg.shortWrite] ∧ IsReport rep := by
  obtain ⟨lv, hlv⟩ := body_good c s p hp hbuf
  have hfl := frame_length p.ibuf p.qbuf c.samplesPerPacket hp.2.1 hp.2.2
  have hn : room / 2 ≤ 2 * c.samplesPerPacket := by
    split at hshort <;> omega
  rw [persist_short c _ room hs
      (by rw [report_buffer]
          show c.samplesPerPacket * 2 ≤
            (frame p.ibuf p.qbuf ++ List.drop (2 * c.samplesPerPacket) s.buffer).length
          rw [List.length_append, List.length_drop, hfl]; omega)
      (by rw [report_file]; exact hroom)
      (by rw [report_bytes_to_read]; exact hshort)] at hlv
  refine ⟨_,
    (if u32 (i32 (s.interval + c.samplesPerPacket)) > u32 (c.samp_rate * interval_seconds)
       then [Msg.levels lv.ipeak lv.qpeak lv.iavg lv.qavg (i32 (s.interval + c.samplesPerPacket))]
       else []), loop_brk _ _ _ _ _ hd hlv, ?_, ?_, ?_, ?_⟩
  · show (report c _).bytes_to_read = _
    rw [report_bytes_to_read]
  · show (report c _).file.data ++ (shorts_bytes (report c _).buffer).take _ = _
    rw [report_file, report_buffer]
    show s.file.data ++ _ = _
    rw [take_shorts_bytes_frame p c.samplesPerPacket (room / 2) _ hp hn]
  · show (report c _).stderr ++ _ = _
    rw [report_stderr]
  · unfold IsReport
    split
    · exact Or.inr ⟨_, _, _, _, _, rfl⟩
    · exact Or.inl rfl

/-- Claim C12: when `mir_sdr_ReadPacket` fails in a pass, the loop is left in
that pass before anything else happens: the file, the buffer, the sample
counter, the four level accumulators, the remaining budget and `do_exit` are
what they were, the only line printed in the pass is the failed-read warning,
the batches still on offer are never requested, and the status line after the
loop reports the library error code. -/
theorem read_failure_stops_loop (c : Config) (s : State) (p : Packet) (ps : List Packet)
    (hd : s.do_exit = false) (hr : p.r ≠ mir_sdr_Success) :
    ∃ s1 : State,
      loop c s (p :: ps) = Outcome.done s1 ps ∧
      s1.file = s.file ∧ s1.buffer = s.buffer ∧ s1.interval = s.interval ∧
      s1.ipeak = s.ipeak ∧ s1.qpeak = s.qpeak ∧ s1.iavg = s.iavg ∧ s1.qavg = s.qavg ∧
      s1.bytes_to_read = s.bytes_to_read ∧ s1.do_exit = false ∧
      s1.stderr = s.stderr ++ [Msg.readPacketFailed] ∧
      (epilogue s1).stderr = s.stderr ++ [Msg.readPacketFailed, Msg.libraryError p.r] := by
  have hb : body c s p =
      Step.brk { s with r := p.r, stderr := s.stderr ++ [Msg.readPacketFailed] } := by
    simp only [body, hr, ne_eq, not_false_eq_true, if_true]
  refine ⟨_, loop_brk _ _ _ _ _ hd hb, rfl, rfl, rfl, rfl, rfl, rfl, rfl, rfl, hd, rfl, ?_⟩
  simp [epilogue, hd]

/-- Witness of claim C11: a sink with room for 500 elements and a batch of 672. -/
theorem short_write_stops_loop_witness :
    (initial (List.replicate 672 0) 0 (limited_file 1000)).do_exit = false ∧
    (packet_of 336 1 (-1)).good (config 2048000 336).samplesPerPacket ∧
    (config 2048000 336).samplesPerPacket * 2 < 4294967296 ∧
    2 * (config 2048000 336).samplesPerPacket ≤
      (initial (List.replicate 672 0) 0 (limited_file 1000)).buffer.length ∧
    (initial (List.replicate 672 0) 0 (limited_file 1000)).file.room = some 1000 ∧
    1000 / 2 <
      (if 0 < (initial (List.replicate 672 0) 0 (limited_file 1000)).bytes_to_read ∧
          (initial (List.replicate 672 0) 0 (limited_file 1000)).bytes_to_read ≤
            (config 2048000 336).samplesPerPacket * 2
        then (initial (List.replicate 672 0) 0 (limited_file 1000)).bytes_to_read
        else (config 2048000 336).samplesPerPacket * 2) ∧
    ∃ (s1 : State) (rep : List Msg),
      loop (config 2048000 336) (initial (List.replicate 672 0) 0 (limited_file 1000))
          (packet_of 336 1 (-1) :: [packet_of 336 2 (-2)]) =
        Outcome.done s1 [packet_of 336 2 (-2)] ∧
      s1.bytes_to_read = (initial (List.replicate 672 0) 0 (limited_file 1000)).bytes_to_read ∧
      s1.file.data = (initial (List.replicate 672 0) 0 (limited_file 1000)).file.data ++
        (frame_bytes (packet_of 336 1 (-1))).take (2 * (1000 / 2)) ∧
      s1.stderr = (initial (List.replicate 672 0) 0 (limited_file 1000)).stderr ++ rep ++
        [Msg.shortWrite] ∧
      IsReport rep :=
  have hbuf : 2 * (config 2048000 336).samplesPerPacket ≤
      (initial (List.replicate 672 0) 0 (limited_file 1000)).buffer.length := by
    show 2 * 336 ≤ (List.replicate 672 (0 : Int)).length
    rw [List.length_replicate]
  ⟨rfl, packet_of_good _ _ _, by decide, hbuf, rfl, by decide,
    short_write_stops_loop (config 2048000 336)
      (initial (List.replicate 672 0) 0 (limited_file 1000)) (packet_of 336 1 (-1))
      [packet_of 336 2 (-2)] 1000 rfl (packet_of_good _ _ _) (by decide) hbuf rfl (by decide)⟩

/-- Witness of claim C12: a failed first read with one more batch on offer. -/
theorem read_failure_stops_loop_witness :
    (initial (List.replicate 672 0) 0 header_file).do_exit = false ∧
    ({ r := -1, ibuf := [], qbuf := [] } : Packet).r ≠ mir_sdr_Success ∧
    ∃ s1 : State,
      loop (config 2048000 336) (initial (List.replicate 672 0) 0 header_file)
          ({ r := -1, ibuf := [], qbuf := [] } :: [packet_of 336 1 (-1)]) =
        Outcome.done s1 [packet_of 336 1 (-1)] ∧
      s1.file = (initial (List.replicate 672 0) 0 header_file).file ∧
      s1.buffer = (initial (List.replicate 672 0) 0 header_file).buffer ∧
      s1.interval = (initial (List.replicate 672 0) 0 header_file).interval ∧
      s1.ipeak = (initial (List.replicate 672 0) 0 header_file).ipeak ∧
      s1.qpeak = (initial (List.replicate 672 0) 0 header_file).qpeak ∧
      s1.iavg = (initial (List.replicate 672 0) 0 header_file).iavg ∧
      s1.qavg = (initial (List.replicate 672 0) 0 header_file).qavg ∧
      s1.bytes_to_read = (initial (List.replicate 672 0) 0 header_file).bytes_to_read ∧
      s1.do_exit = false ∧
      s1.stderr = (initial (List.replicate 672 0) 0 header_file).stderr ++
        [Msg.readPacketFailed] ∧
      (epilogue s1).stderr = (initial (List.replicate 672 0) 0 header_file).stderr ++
        [Msg.readPacketFailed,
          Msg.libraryError ({ r := -1, ibuf := [], qbuf := [] } : Packet).r] :=
  ⟨rfl, by decide,
    read_failure_stops_loop (config 2048000 336) (initial (List.replicate 672 0) 0 header_file)
      { r := -1, ibuf := [], qbuf := [] } [packet_of 336 1 (-1)] rfl (by decide)⟩

/-! ## The level monitor -/

theorem report_eq_report_at (c : Config) (s : State) :
    report c s = report_at interval_seconds c s := rfl

/-- A sample counter that fits in `int` is its own `uint32_t` value. -/
theorem u32_i32_of_fits (x : Int) (h0 : 0 ≤ x) (h1 : x < 2147483648) : (u32 (i32 x) : Int) = x := by
  unfold u32 i32
  omega

theorem u32_cast (x : Int) : (u32 x : Int) = x % 4294967296 := by
  unfold u32
  omega

/-- Counterexample to claim C13: at sample rate `2^31` the product
`samp_rate * interval_seconds` wraps to 0 in `uint32_t`, so the first batch of
336 samples already produces a report and resets the counter, although 336 is
not greater than `2^31 * 2`. -/
theorem report_threshold_wraps :
    (report (config 2147483648 336) (initial [] 0 empty_file)).stderr =
      [Msg.levels 0 0 0 0 336] ∧
    (report (config 2147483648 336) (initial [] 0 empty_file)).interval = 0 ∧
    ¬ ((initial [] 0 empty_file).interval + 336 > 2147483648 * interval_seconds) := by
  decide

/-- Claim C13 as amended: with the sample counter after the batch,
`s.interval + samplesPerPacket`, within the range of `int`, line 388-396
produces a report exactly when that counter is strictly greater than
`samp_rate * seconds` reduced modulo `2^32`; when it does, the counter, both
sums and both peaks become 0 and the report carries the values they had; when
it does not, the counter keeps its new value and the sums and peaks are
untouched.  With `seconds = 0` a report is produced exactly when the batch has
at least one sample or the counter was already positive.  The program runs
this with `seconds = 2`. -/
theorem report_at_exact (seconds : Int) (c : Config) (s : State) (h0 : 0 ≤ s.interval)
    (h1 : s.interval + c.samplesPerPacket < 2147483648) :
    report_at seconds c s =
      (if s.interval + c.samplesPerPacket > (c.samp_rate * seconds) % 4294967296 then
        { s with
          stderr := s.stderr ++
            [Msg.levels s.ipeak s.qpeak s.iavg s.qavg (s.interval + c.samplesPerPacket)]
          interval := 0
          ipeak := 0
          qpeak := 0
          iavg := 0
          qavg := 0 }
      else { s with interval := s.interval + c.samplesPerPacket }) ∧
    report_at 0 c s =
      (if 1 ≤ c.samplesPerPacket ∨ 0 < s.interval then
        { s with
          stderr := s.stderr ++
            [Msg.levels s.ipeak s.qpeak s.iavg s.qavg (s.interval + c.samplesPerPacket)]
          interval := 0
          ipeak := 0
          qpeak := 0
          iavg := 0
          qavg := 0 }
      else { s with interval := s.interval + c.samplesPerPacket }) ∧
    report c s = report_at 2 c s := by
  have hx : 0 ≤ s.interval + (c.samplesPerPacket : Int) := by omega
  have hi : i32 (s.interval + c.samplesPerPacket) = s.interval + c.samplesPerPacket := by
    unfold i32
    omega
  have hu := u32_i32_of_fits _ hx h1
  have key : ∀ sec : Int,
      (u32 (i32 (s.interval + c.samplesPerPacket)) > u32 (c.samp_rate * sec)) ↔
        s.interval + c.samplesPerPacket > (c.samp_rate * sec) % 4294967296 := by
    intro sec
    have hv := u32_cast (c.samp_rate * sec)
    constructor
    · intro h
      have : (u32 (c.samp_rate * sec) : Int) < (u32 (i32 (s.interval + c.samplesPerPacket)) : Int) := by
        exact_mod_cast h
      rw [hu, hv] at this
      exact this
    · intro h
      have : (u32 (c.samp_rate * sec) : Int) < (u32 (i32 (s.interval + c.samplesPerPacket)) : Int) := by
        rw [hu, hv]
        exact h
      exact_mod_cast this
  simp only [hi] at key
  refine ⟨?_, ?_, rfl⟩
  · by_cases h : s.interval + c.samplesPerPacket > (c.samp_rate * seconds) % 4294967296
    · simp only [report_at, (key seconds).mpr h, if_true, if_pos h, hi]
    · have h' : ¬ u32 (s.interval + c.samplesPerPacket) > u32 (c.samp_rate * seconds) :=
        fun hh => h ((key seconds).mp hh)
      simp only [report_at, h', if_false, if_neg h, hi]
  · have hz : (c.samp_rate * (0 : Int)) % 4294967296 = 0 := by simp
    by_cases h : 1 ≤ c.samplesPerPacket ∨ 0 < s.interval
    · have hgt : s.interval + c.samplesPerPacket > (c.samp_rate * (0 : Int)) % 4294967296 := by
        rw [hz]; omega
      simp only [report_at, (key 0).mpr hgt, if_true, if_pos h, hi]
    · have hgt : ¬ s.interval + c.samplesPerPacket > (c.samp_rate * (0 : Int)) % 4294967296 := by
        rw [hz]; omega
      have h' : ¬ u32 (s.interval + c.samplesPerPacket) > u32 (c.samp_rate * (0 : Int)) :=
        fun hh => hgt ((key 0).mp hh)
      simp only [report_at, h', if_false, if_neg h, hi]

/-- Witness of the amended claim C13: with `seconds = 0` the first batch of 336
samples produces a report. -/
theorem report_at_exact_witness :
    0 ≤ (initial [] 0 empty_file).interval ∧
    (initial [] 0 empty_file).interval + (config 2048000 336).samplesPerPacket < 2147483648 ∧
    (report_at 0 (config 2048000 336) (initial [] 0 empty_file)).stderr =
      [Msg.levels 0 0 0 0 336] ∧
    report_at 0 (config 2048000 336) (initial [] 0 empty_file) =
      (if 1 ≤ (config 2048000 336).samplesPerPacket ∨ 0 < (initial [] 0 empty_file).interval then
        { initial [] 0 empty_file with
          stderr := (initial [] 0 empty_file).stderr ++
            [Msg.levels (initial [] 0 empty_file).ipeak (initial [] 0 empty_file).qpeak
              (initial [] 0 empty_file).iavg (initial [] 0 empty_file).qavg
              ((initial [] 0 empty_file).interval + (config 2048000 336).samplesPerPacket)]
          interval := 0
          ipeak := 0
          qpeak := 0
          iavg := 0
          qavg := 0 }
      else { initial [] 0 empty_file with
        interval := (initial [] 0 empty_file).interval +
          (config 2048000 336).samplesPerPacket }) ∧
    report (config 2048000 336) (initial [] 0 empty_file) =
      report_at 2 (config 2048000 336) (initial [] 0 empty_file) :=
  ⟨by decide, by decide, by decide,
    (report_at_exact 0 (config 2048000 336) (initial [] 0 empty_file) (by decide)
      (by decide)).2⟩

/-! ## The decibel conversion -/

theorem log_ten_ne_one : Real.log 10 ≠ 1 := by
  intro h
  have h1 : Real.exp (Real.log 10) = Real.exp 1 := by rw [h]
  rw [Real.exp_log (by norm_num)] at h1
  have h2 := Real.exp_one_lt_d9
  rw [← h1] at h2
  norm_num at h2

/-- With the natural logarithm for `logf`, `db` differs from `10 * log10` at
every positive power value other than 1. -/
theorem db_ne_ten_log10 (x : ℝ) (hx : 0 < x) (h1 : x ≠ 1) :
    db Real.log x ≠ 10 * Real.logb 10 x := by
  unfold db
  intro h
  have hlog : Real.log x ≠ 0 := by
    intro h0
    rcases Real.log_eq_zero.mp h0 with h' | h' | h'
    · linarith
    · exact h1 h'
    · linarith
  have h10 : Real.log 10 ≠ 0 := by
    intro h0
    rcases Real.log_eq_zero.mp h0 with h' | h' | h' <;> norm_num at h'
  have e : Real.log x = Real.logb 10 x := by linarith
  rw [← Real.log_div_log] at e
  have : Real.log x * Real.log 10 = Real.log x := by
    have hc := div_mul_cancel₀ (Real.log x) h10
    calc Real.log x * Real.log 10 = Real.log x / Real.log 10 * Real.log 10 := by rw [← e]
      _ = Real.log x := hc
  have : Real.log x * (Real.log 10 - 1) = 0 := by linarith
  rcases mul_eq_zero.mp this with h' | h'
  · exact hlog h'
  · exact log_ten_ne_one (by linarith)

/-- The peak-to-average value `db (peak / mean)` is the difference of the two
`db` values, whatever the base of the logarithm. -/
theorem db_div (p m : ℝ) (hp : 0 < p) (hm : 0 < m) :
    db Real.log (p / m) = db Real.log p - db Real.log m := by
  unfold db
  rw [Real.log_div (ne_of_gt hp) (ne_of_gt hm)]
  ring

/-- Claim C14, the code at the failing input: with C's `logf`, the natural
logarithm, `db` of the power `1/4` (a peak sample of 16384, half of full
scale) is `10 * ln (1/4)`, which is not `10 * log10 (1/4)`; `db (1/4)` is
`-20 * ln 2` while `10 * log10 (1/4)` is `-20 * log10 2`. -/
theorem db_uses_natural_log :
    db Real.log (1 / 4) = 10 * Real.log (1 / 4) ∧
    db Real.log (1 / 4) ≠ 10 * Real.logb 10 (1 / 4) ∧
    db Real.log (1 / 4) = -20 * Real.log 2 ∧
    10 * Real.logb 10 (1 / 4) = -20 * Real.logb 10 2 := by
  have h4 : Real.log (1 / 4) = -2 * Real.log 2 := by
    rw [one_div, Real.log_inv]
    have : (4 : ℝ) = 2 ^ 2 := by norm_num
    rw [this, Real.log_pow]
    push_cast
    ring
  refine ⟨rfl, db_ne_ten_log10 _ (by norm_num) (by norm_num), ?_, ?_⟩
  · unfold db
    rw [h4]
    ring
  · rw [← Real.log_div_log, ← Real.log_div_log, h4]
    ring

/-! ## The bounds of the output buffer -/

/-- The interleave step on a buffer too short for the batch stores outside it. -/
theorem interleave_overflow (ibuf qbuf buffer : List Int) (B : Nat) (hi : ibuf.length = B)
    (hq : qbuf.length = B) (hb : buffer.length < 2 * B) :
    interleave ibuf qbuf B buffer = none :=
  interleave_loop_overflow ibuf qbuf B 0 [] buffer hb (by omega) (by omega)

/-- Line 400-417 reads inside the buffer when the buffer holds a whole batch. -/
theorem persist_ne_fault (c : Config) (t : State) (hs : c.samplesPerPacket * 2 < 4294967296)
    (hle : c.samplesPerPacket * 2 ≤ t.buffer.length) : persist c t ≠ Step.fault := by
  have hm : c.samplesPerPacket * 2 % 4294967296 = c.samplesPerPacket * 2 := Nat.mod_eq_of_lt hs
  unfold persist
  simp only [hm]
  by_cases hit : 0 < t.bytes_to_read ∧ t.bytes_to_read ≤ c.samplesPerPacket * 2
  · have h3 : ¬ t.bytes_to_read > t.buffer.length := by omega
    simp only [hit, and_self, decide_True, if_true, h3, if_false]
    split_ifs <;> simp
  · have h3 : ¬ c.samplesPerPacket * 2 > t.buffer.length := by omega
    simp only [hit, decide_False, if_false, h3, Bool.false_eq_true]
    split_ifs <;> simp

/-- Claim C15: `buffer` has the fixed `out_block_size = 672` elements whatever
batch size the device reports; for a successfully read batch of
`samplesPerPacket = B` pairs, every index `0 .. 2 * B - 1` that the interleave
loop stores to lies inside the buffer exactly when `B ≤ 336`, the interleave
step stays inside the buffer exactly when `B ≤ 336`, and the whole pass
(interleave, then the read of `n_read` elements by `fwrite`) stays inside the
buffer exactly when `B ≤ 336`, whatever the budget and the sink are. -/
theorem buffer_access_in_bounds_iff (sr B : Nat) (s : State) (p : Packet) (hp : p.good B)
    (hbuf : s.buffer.length = out_block_size) :
    out_block_size = 672 ∧
    ((∀ j, j < 2 * B → j < s.buffer.length) ↔ B ≤ 336) ∧
    ((interleave p.ibuf p.qbuf B s.buffer).isSome = true ↔ B ≤ 336) ∧
    (body (config sr B) s p ≠ Step.fault ↔ B ≤ 336) := by
  have hlen : s.buffer.length = 672 := by rw [hbuf, out_block_size_eq]
  refine ⟨out_block_size_eq, ?_, ?_, ?_⟩
  · constructor
    · intro h
      by_contra hB
      have := h 672 (by omega)
      omega
    · intro hB j hj
      omega
  · constructor
    · intro h
      by_contra hB
      rw [interleave_overflow _ _ _ B hp.2.1 hp.2.2 (by omega)] at h
      exact absurd h (by simp)
    · intro hB
      rw [interleave_eq _ _ _ B hp.2.1 hp.2.2 (by omega)]
      rfl
  · constructor
    · intro h
      by_contra hB
      apply h
      have hn : interleave p.ibuf p.qbuf (config sr B).samplesPerPacket s.buffer = none :=
        interleave_overflow _ _ _ B hp.2.1 hp.2.2 (by omega)
      have hr : p.r = mir_sdr_Success := hp.1
      simp only [body, hr, ne_eq, not_true_eq_false, if_false, hn]
    · intro hB
      obtain ⟨lv, hlv⟩ := body_good (config sr B) s p hp (by show 2 * B ≤ _; omega)
      rw [hlv]
      have hfl := frame_length p.ibuf p.qbuf B hp.2.1 hp.2.2
      apply persist_ne_fault
      · show B * 2 < _
        omega
      · rw [report_buffer]
        show B * 2 ≤ (frame p.ibuf p.qbuf ++ List.drop (2 * B) s.buffer).length
        rw [List.length_append, List.length_drop, hfl]
        omega

/-- Witness of claim C15 at the batch size 336 the buffer is made for. -/
theorem buffer_access_in_bounds_iff_witness :
    (packet_of 336 1 (-1)).good 336 ∧
    (initial (List.replicate out_block_size 0) 0 empty_file).buffer.length = out_block_size ∧
    out_block_size = 672 ∧
    ((∀ j, j < 2 * 336 →
        j < (initial (List.replicate out_block_size 0) 0 empty_file).buffer.length) ↔
      336 ≤ 336) ∧
    ((interleave (packet_of 336 1 (-1)).ibuf (packet_of 336 1 (-1)).qbuf 336
        (initial (List.replicate out_block_size 0) 0 empty_file).buffer).isSome = true ↔
      336 ≤ 336) ∧
    (body (config 2048000 336) (initial (List.replicate out_block_size 0) 0 empty_file)
        (packet_of 336 1 (-1)) ≠ Step.fault ↔ 336 ≤ 336) :=
  have hbuf : (initial (List.replicate out_block_size 0) 0 empty_file).buffer.length =
      out_block_size := by
    show (List.replicate out_block_size (0 : Int)).length = out_block_size
    rw [List.length_replicate]
  ⟨packet_of_good _ _ _, hbuf,
    buffer_access_in_bounds_iff 2048000 336
      (initial (List.replicate out_block_size 0) 0 empty_file) (packet_of 336 1 (-1))
      (packet_of_good _ _ _) hbuf⟩

end PlayWave
